import Mathlib

/-!
Verification of the EP-engine core (per-vbucket hash table mutation state
machine, durability monitor, item pager, collections manifest) against its
specification.  The definitions below are a shallow embedding of the C++
sources (`src/engines/ep/src/vbucket.cc`,
`src/engines/ep/src/collections/vbucket_manifest.cc`, the item pager, and
the durability monitor test suite).  Stateful code becomes explicit state
passing; machine integers become `Nat`/`Int`; fallible code returns
`Except`.
-/

set_option maxHeartbeats 1000000

/-! ## Core types of the hash-table / stored-value state machine -/

/-- Eviction policy of the bucket (`item_eviction_policy_t`). -/
inductive EvictionPolicy where
  | valueOnly
  | fullEviction
  deriving DecidableEq, Repr, Inhabited

/-- State of a vbucket (`vbucket_state_t`). -/
inductive VBState where
  | active
  | replica
  | pending
  | dead
  deriving DecidableEq, Repr, Inhabited

/-- Result of the per-slot mutation state machine (`MutationStatus`). -/
inductive MutationStatus where
  | NoMem
  | InvalidCas
  | IsLocked
  | NotFound
  | WasClean
  | WasDirty
  | NeedBgFetch
  deriving DecidableEq, Repr, Inhabited

/-- Engine-level status codes surfaced to the caller (`ENGINE_ERROR_CODE`). -/
inductive EngineCode where
  | Success
  | KeyNotFound
  | KeyExists
  | Locked
  | LockedTmpFail
  | NoMemory
  | WouldBlock
  deriving DecidableEq, Repr, Inhabited

/-- Sentinel by-seqno marking a temporary deleted-key placeholder
(`StoredValue::state_deleted_key`). -/
def state_deleted_key : Int := -3

/-- Sentinel by-seqno marking a temporary non-existent-key placeholder
(`StoredValue::state_non_existent_key`). -/
def state_non_existent_key : Int := -4

/-- Sentinel by-seqno marking a temporary initial placeholder
(`StoredValue::state_temp_init`). -/
def state_temp_init : Int := -5

/-- Sentinel seqno marking an open collection
(`StoredValue::state_collection_open`, the `0,-6` comment in
`vbucket_manifest.cc` line 199). -/
def state_collection_open : Int := -6

/-- One hash-table slot entry.  Modelled from the spec: `stored_value.h` is
not under `src/`; the spec lists the attributes (key, optional value, CAS,
revision seqno, by-seqno, flags, exptime, datatype bitset, deleted/dirty/
resident bits, and the shared lock-expiry-or-delete-time field). -/
structure StoredValue where
  value : Option Nat
  datatypeXattr : Bool
  cas : Nat
  revSeqno : Nat
  bySeqno : Int
  flags : Nat
  exptime : Nat
  deleted : Bool
  dirty : Bool
  resident : Bool
  lockExpiry : Nat
  deriving DecidableEq, Repr, Inhabited

/-- An incoming item (the parts of `Item` consulted by the state machine). -/
structure Item where
  value : Option Nat
  datatypeXattr : Bool
  cas : Nat
  revSeqno : Nat
  bySeqno : Int
  flags : Nat
  exptime : Nat
  deleted : Bool
  deriving DecidableEq, Repr, Inhabited

/-- The per-key view of the hash table: the slot for the key under its
bucket lock, plus the table-wide `maxDeletedRevSeqno` counter. -/
structure HTSlot where
  slot : Option StoredValue
  maxDeletedRevSeqno : Nat
  deriving DecidableEq, Repr, Inhabited

/-- Ambient, externally supplied inputs of one mutation: clocks, the next
HLC CAS, the next checkpoint by-seqno, the memory-admission verdict
(`StoredValue::hasAvailableSpace`) and the Bloom-filter prediction for the
key (`VBucket::maybeKeyExistsInFilter`). -/
structure VBCtx where
  eviction : EvictionPolicy
  vbState : VBState
  /-- `ep_real_time()`, used for expiry. -/
  realNow : Nat
  /-- `ep_current_time()`, used for locking. -/
  curTime : Nat
  /-- the CAS the HLC would issue next (`nextHLCCas`), nonzero in practice. -/
  hlcCas : Nat
  /-- the by-seqno the checkpoint manager would generate next. -/
  nextSeqno : Nat
  hasSpace : Bool
  bloomMaybe : Bool
  deriving DecidableEq, Repr, Inhabited

/-- Expiry predicate.  Modelled from the spec: an item with
`exptime != 0 && exptime < now` is expired (`StoredValue::isExpired`). -/
def StoredValue.isExpired (v : StoredValue) (now : Nat) : Bool :=
  v.exptime != 0 && v.exptime < now

/-- Lock predicate.  Modelled from the spec: a value locked by `getLocked`
rejects writes until `now ≥ lock_expiry`; the shared field holds a lock
expiry only for non-deleted values (`StoredValue::isLocked`). -/
def StoredValue.isLocked (v : StoredValue) (curtime : Nat) : Bool :=
  !v.deleted && v.lockExpiry != 0 && curtime < v.lockExpiry

/-- Release a lock (`StoredValue::unlock`). -/
def StoredValue.unlock (v : StoredValue) : StoredValue :=
  { v with lockExpiry := 0 }

/-- Temp-initial placeholder test (`StoredValue::isTempInitialItem`). -/
def StoredValue.isTempInitialItem (v : StoredValue) : Bool :=
  v.bySeqno == state_temp_init

/-- Temp-deleted placeholder test (`StoredValue::isTempDeletedItem`). -/
def StoredValue.isTempDeletedItem (v : StoredValue) : Bool :=
  v.bySeqno == state_deleted_key

/-- Temp-non-existent placeholder test
(`StoredValue::isTempNonExistentItem`). -/
def StoredValue.isTempNonExistentItem (v : StoredValue) : Bool :=
  v.bySeqno == state_non_existent_key

/-- Any temporary placeholder (`StoredValue::isTempItem`). -/
def StoredValue.isTempItem (v : StoredValue) : Bool :=
  v.isTempInitialItem || v.isTempDeletedItem || v.isTempNonExistentItem

/-- Replace a stored value's contents with an incoming item's.  Modelled
from the spec: `HashTable::unlocked_updateStoredValue` / `VBucket::
updateStoredValue` are not under `src/`; the update copies the item's
value and metadata into the slot, queues it dirty (assigning the next
by-seqno and, for `GenerateCas::Yes` paths, the next HLC CAS), and reports
`WasDirty`/`WasClean` from the value's prior dirty bit. -/
def updateStoredValue (ctx : VBCtx) (v : StoredValue) (itm : Item) :
    MutationStatus × StoredValue :=
  (if v.dirty then .WasDirty else .WasClean,
   { value := itm.value
     datatypeXattr := itm.datatypeXattr
     cas := ctx.hlcCas
     revSeqno := itm.revSeqno
     bySeqno := (ctx.nextSeqno : Int)
     flags := itm.flags
     exptime := itm.exptime
     deleted := itm.deleted
     dirty := true
     resident := true
     lockExpiry := 0 })

/-- Insert a fresh stored value for an incoming item.  Modelled from the
spec: `VBucket::addNewStoredValue` is not under `src/`; it inserts the
item into the hash table and queues it dirty (assigning by-seqno/CAS). -/
def addNewStoredValue (ctx : VBCtx) (itm : Item) : StoredValue :=
  { value := itm.value
    datatypeXattr := itm.datatypeXattr
    cas := ctx.hlcCas
    revSeqno := itm.revSeqno
    bySeqno := (ctx.nextSeqno : Int)
    flags := itm.flags
    exptime := itm.exptime
    deleted := itm.deleted
    dirty := true
    resident := true
    lockExpiry := 0 }

/-- `VBucket::updateRevSeqNoOfNewStoredValue` (vbucket.cc:2296-2307):
assign `maxDeletedRevSeqno`, incremented once unless the value is a
temporary item. -/
def updateRevSeqNoOfNewStoredValue (maxDeletedRevSeqno : Nat)
    (v : StoredValue) : StoredValue :=
  { v with revSeqno :=
      if v.isTempItem then maxDeletedRevSeqno else maxDeletedRevSeqno + 1 }

/-- The successful tail of `VBucket::processSet` over an existing stored
value (vbucket.cc:2003-2021): without external metadata the item's
revision becomes the prior revision plus one, a replace (nonzero CAS) over
a deleted value is refused, and otherwise the stored value is updated. -/
def processSetUpdatePath (ctx : VBCtx) (ht : HTSlot) (itm : Item)
    (cas : Nat) (hasMetaData : Bool) (v : StoredValue) :
    MutationStatus × HTSlot × Option StoredValue :=
  let itm1 := if hasMetaData then itm
              else { itm with revSeqno := v.revSeqno + 1 }
  if !hasMetaData && (cas != 0) && (v.deleted || v.isTempDeletedItem) &&
      !itm.deleted then
    (.NotFound, { ht with slot := some v }, none)
  else
    let r := updateStoredValue ctx v itm1
    (r.1, { ht with slot := some r.2 }, some r.2)

/-- The continuation of `VBucket::processSet` after the expiry pre-check
(vbucket.cc:1973-2032): the existing-value checks (`allowExisting`, lock,
CAS) ending in an update, or the fresh-insert path. -/
def processSetMain (ctx : VBCtx) (ht : HTSlot) (itm : Item) (cas : Nat)
    (allowExisting hasMetaData : Bool) (slotA : Option StoredValue) :
    MutationStatus × HTSlot × Option StoredValue :=
  match slotA with
  | some v =>
    let ht1 : HTSlot := { ht with slot := some v }
    if !allowExisting && !v.isTempItem && !v.deleted then
      (.InvalidCas, ht1, none)
    else if v.isLocked ctx.curTime then
      if cas != v.cas then (.IsLocked, ht1, none)
      else processSetUpdatePath ctx ht1 itm cas hasMetaData v.unlock
    else if (cas != 0) && (cas != v.cas) then
      if v.isTempNonExistentItem then (.NotFound, ht1, none)
      else if (v.isTempDeletedItem || v.deleted) && !itm.deleted then
        (.NotFound, ht1, none)
      else (.InvalidCas, ht1, none)
    else processSetUpdatePath ctx ht1 itm cas hasMetaData v
  | none =>
    if cas != 0 then (.NotFound, ht, none)
    else
      let v1 := addNewStoredValue ctx itm
      let v2 := if !hasMetaData then
          updateRevSeqNoOfNewStoredValue ht.maxDeletedRevSeqno v1
        else v1
      (.WasClean, { ht with slot := some v2 }, some v2)

/-- `VBucket::processSet` (vbucket.cc:1929-2033).  Returns the mutation
status, the new state of the key's slot, and the resulting stored value
for successful mutations. -/
def processSet (ctx : VBCtx) (ht : HTSlot) (itm : Item) (cas : Nat)
    (allowExisting hasMetaData maybeKeyExists : Bool) :
    MutationStatus × HTSlot × Option StoredValue :=
  if !ctx.hasSpace then (.NoMem, ht, none)
  else if (cas != 0) && (ctx.eviction == .fullEviction) && maybeKeyExists &&
      (ht.slot.elim true (·.isTempInitialItem)) then
    (.NeedBgFetch, ht, none)
  else
    match ht.slot with
    | some v =>
      -- expiry pre-check (vbucket.cc:1963-1971): may unlock, and denies a
      -- CAS op over an expired value.
      if v.isExpired ctx.realNow && !hasMetaData && !itm.deleted then
        let v1 := if v.isLocked ctx.curTime then v.unlock else v
        if cas != 0 then (.NotFound, { ht with slot := some v1 }, none)
        else processSetMain ctx ht itm cas allowExisting hasMetaData (some v1)
      else processSetMain ctx ht itm cas allowExisting hasMetaData (some v)
    | none => processSetMain ctx ht itm cas allowExisting hasMetaData none

/-- `VBucket::addTempStoredValue` (vbucket.cc:2217-2254): insert a
temp-initial placeholder (not queued to a checkpoint), assigning it
`maxDeletedRevSeqno` as its revision. -/
def addTempStoredValue (ctx : VBCtx) (ht : HTSlot) : Bool × HTSlot :=
  if !ctx.hasSpace then (false, ht)
  else
    let v : StoredValue :=
      { value := none
        datatypeXattr := false
        cas := 0
        revSeqno := ht.maxDeletedRevSeqno
        bySeqno := state_temp_init
        flags := 0
        exptime := 0
        deleted := false
        dirty := false
        resident := true
        lockExpiry := 0 }
    (true, { ht with slot := some v })

/-- `VBucket::addTempItemAndBGFetch`: add a temp-initial placeholder and
schedule a background fetch; surfaces `NoMemory` when admission fails and
`WouldBlock` otherwise.  The bg-fetch scheduling itself is external. -/
def addTempItemAndBGFetch (ctx : VBCtx) (ht : HTSlot) :
    EngineCode × HTSlot :=
  let r := addTempStoredValue ctx ht
  if r.1 then (.WouldBlock, r.2) else (.NoMemory, r.2)

/-- `VBucket::set` (vbucket.cc:712-806): the front-end set operation on
one key's slot, mapping the state-machine status to an engine code. -/
def VBucket.set (ctx : VBCtx) (ht : HTSlot) (itm : Item) :
    EngineCode × HTSlot :=
  let cas_op := itm.cas != 0
  -- replica/pending vbuckets silently unlock on any write
  -- (vbucket.cc:729-733).
  let ht0 : HTSlot :=
    match ht.slot with
    | some v =>
      if v.isLocked ctx.curTime &&
          ((ctx.vbState == .replica) || (ctx.vbState == .pending)) then
        { ht with slot := some v.unlock }
      else ht
    | none => ht
  -- Bloom-filter consultation (vbucket.cc:735-744).
  let maybeKeyExists :=
    if (ht0.slot.elim true (·.isTempInitialItem)) &&
        (ctx.eviction == .fullEviction) && (itm.cas != 0) then
      ctx.bloomMaybe
    else true
  let r := processSet ctx ht0 itm itm.cas true false maybeKeyExists
  match r.1 with
  | .NoMem => (.NoMemory, r.2.1)
  | .InvalidCas => (.KeyExists, r.2.1)
  | .IsLocked => (.Locked, r.2.1)
  | .NotFound =>
    if cas_op then (.KeyNotFound, r.2.1) else (.Success, r.2.1)
  | .WasDirty => (.Success, r.2.1)
  | .WasClean => (.Success, r.2.1)
  | .NeedBgFetch =>
    match r.2.1.slot with
    | some _ => (.WouldBlock, r.2.1)
    | none => addTempItemAndBGFetch ctx r.2.1

/-- Metadata accompanying a delete (`ItemMetaData`). -/
structure ItemMetaData where
  cas : Nat
  revSeqno : Nat
  flags : Nat
  exptime : Nat
  deriving DecidableEq, Repr, Inhabited

/-- Soft-delete a stored value.  Modelled from the spec:
`VBucket::softDeleteStoredValue` is not under `src/`; it marks the value
deleted, resets the value unless `onlyMarkDeleted` asks to keep it for
xattr preservation, and queues the deletion dirty (new by-seqno and CAS).
The shared delete-timestamp use of the lock field is not modelled. -/
def softDeleteStoredValue (ctx : VBCtx) (v : StoredValue)
    (onlyMarkDeleted : Bool) : StoredValue :=
  { v with deleted := true
           value := if onlyMarkDeleted then v.value else none
           bySeqno := (ctx.nextSeqno : Int)
           cas := ctx.hlcCas
           dirty := true
           lockExpiry := 0 }

/-- Advance `HashTable::maxDeletedRevSeqno`.  Modelled from the spec: it
advances monotonically to the largest revision of any deleted or expired
value it has seen (`HashTable::updateMaxDeletedRevSeqno`). -/
def updateMaxDeletedRevSeqno (ht : HTSlot) (rev : Nat) : HTSlot :=
  { ht with maxDeletedRevSeqno := max ht.maxDeletedRevSeqno rev }

/-- `VBucket::processExpiredItem` (vbucket.cc:2158-2202): soft-delete an
expired value (keeping only xattr-bearing values' bodies), bump its
revision and advance `maxDeletedRevSeqno` past it. -/
def processExpiredItem (ctx : VBCtx) (ht : HTSlot) (v : StoredValue) :
    MutationStatus × HTSlot × StoredValue :=
  if v.isTempInitialItem && (ctx.eviction == .fullEviction) then
    (.NeedBgFetch, ht, v)
  else
    let onlyMarkDeleted := v.value.isSome && v.datatypeXattr
    let v1 := { v with revSeqno := v.revSeqno + 1 }
    let newSv := softDeleteStoredValue ctx v1 onlyMarkDeleted
    (.NotFound,
     updateMaxDeletedRevSeqno { ht with slot := some newSv }
       (newSv.revSeqno + 1),
     newSv)

/-- `VBucket::processSoftDelete` (vbucket.cc:2110-2156). -/
def processSoftDelete (ctx : VBCtx) (ht : HTSlot) (v : StoredValue)
    (cas : Nat) (metadata : ItemMetaData) (use_meta : Bool) :
    MutationStatus × HTSlot × StoredValue :=
  if v.isTempInitialItem && (ctx.eviction == .fullEviction) then
    (.NeedBgFetch, ht, v)
  else if v.isLocked ctx.curTime && (cas != v.cas) then
    (.IsLocked, ht, v)
  else if (cas != 0) && (cas != v.cas) then
    (.InvalidCas, ht, v)
  else
    let rv : MutationStatus := if v.dirty then .WasDirty else .WasClean
    let v1 := v.unlock
    let v2 := if use_meta then
        { v1 with cas := metadata.cas
                  flags := metadata.flags
                  exptime := metadata.exptime }
      else v1
    let v3 := { v2 with revSeqno := metadata.revSeqno }
    let newSv := softDeleteStoredValue ctx v3 false
    (rv,
     updateMaxDeletedRevSeqno { ht with slot := some newSv }
       metadata.revSeqno,
     newSv)

/-- `VBucket::deleteStoredValue` (vbucket.cc:2204-2215): remove the slot
entry outright, refusing for a locked live value. -/
def deleteStoredValue (ctx : VBCtx) (ht : HTSlot) (v : StoredValue) :
    Bool × HTSlot :=
  if !v.deleted && v.isLocked ctx.curTime then (false, ht)
  else (true, { ht with slot := none })

/-- `VBucket::fetchValidValue` (vbucket.cc:655-691): slot lookup that, on
an active vbucket with `QueueExpired::Yes`, soft-deletes an expired live
value in passing. -/
def fetchValidValue (ctx : VBCtx) (ht : HTSlot)
    (wantsDeleted queueExpired : Bool) : Option StoredValue × HTSlot :=
  match ht.slot with
  | none => (none, ht)
  | some v =>
    if !v.deleted && !v.isTempItem && v.isExpired ctx.realNow then
      if ctx.vbState != .active then
        (if wantsDeleted then some v else none, ht)
      else if queueExpired then
        let r := processExpiredItem ctx ht v
        (if wantsDeleted then some r.2.2 else none, r.2.1)
      else (if wantsDeleted then some v else none, ht)
    else (some v, ht)

/-- `VBucket::deleteItem` (vbucket.cc:1077-1197) on one key's slot.  The
unreachable `NeedBgFetch` arm (the source throws a logic error there) is
mapped to `WouldBlock`. -/
def VBucket.deleteItem (ctx : VBCtx) (ht : HTSlot) (reqCas : Nat) :
    EngineCode × HTSlot :=
  match ht.slot with
  | none =>
    if ctx.eviction == .valueOnly then (.KeyNotFound, ht)
    else if ctx.bloomMaybe then addTempItemAndBGFetch ctx ht
    else (.KeyNotFound, ht)
  | some v =>
    if v.deleted || v.isTempItem then
      if ctx.eviction == .valueOnly then (.KeyNotFound, ht)
      else if v.isTempInitialItem then (.WouldBlock, ht)
      else
        let ht1 :=
          if v.isTempNonExistentItem || v.isTempDeletedItem then
            (deleteStoredValue ctx ht v).2
          else ht
        (.KeyNotFound, ht1)
    else
      let v0 :=
        if v.isLocked ctx.curTime &&
            ((ctx.vbState == .replica) || (ctx.vbState == .pending)) then
          v.unlock
        else v
      let ht0 : HTSlot := { ht with slot := some v0 }
      let r :=
        if v0.isExpired ctx.realNow then processExpiredItem ctx ht0 v0
        else
          processSoftDelete ctx ht0 v0 reqCas
            ⟨0, v0.revSeqno + 1, 0, 0⟩ false
      match r.1 with
      | .NoMem => (.NoMemory, r.2.1)
      | .InvalidCas => (.KeyExists, r.2.1)
      | .IsLocked => (.LockedTmpFail, r.2.1)
      | .NotFound => (.KeyNotFound, r.2.1)
      | .WasClean => (.Success, r.2.1)
      | .WasDirty => (.Success, r.2.1)
      | .NeedBgFetch => (.WouldBlock, r.2.1)

/-- The get option flags consulted by `VBucket::getInternal`
(`get_options_t`). -/
structure GetOptions where
  trackReference : Bool
  metadataOnly : Bool
  getDeletedValue : Bool
  bgFetchRequired : Bool
  deleteTemp : Bool
  hideLockedCas : Bool
  deriving DecidableEq, Repr, Inhabited

/-- `VBucket::getInternal` (vbucket.cc:1550-1618) on one key's slot,
reduced to its status code and hash-table effect.  The non-resident path
(`getInternalNonResident`) schedules an external background fetch and is
mapped to `WouldBlock`. -/
def VBucket.getInternal (ctx : VBCtx) (ht : HTSlot) (opts : GetOptions)
    (diskFlushAll : Bool) : EngineCode × HTSlot :=
  let r := fetchValidValue ctx ht true true
  match r.1 with
  | some v =>
    if v.deleted && !opts.getDeletedValue then (.KeyNotFound, r.2)
    else if v.isTempDeletedItem || v.isTempNonExistentItem then
      let ht2 :=
        if opts.deleteTemp then (deleteStoredValue ctx r.2 v).2 else r.2
      (.KeyNotFound, ht2)
    else if !v.resident && !opts.metadataOnly then (.WouldBlock, r.2)
    else (.Success, r.2)
  | none =>
    if !opts.getDeletedValue &&
        ((ctx.eviction == .valueOnly) || diskFlushAll) then
      (.KeyNotFound, r.2)
    else if ctx.bloomMaybe then
      if opts.bgFetchRequired then addTempItemAndBGFetch ctx r.2
      else (.WouldBlock, r.2)
    else (.KeyNotFound, r.2)

/-- `VBucket::getLocked` (vbucket.cc:1726-1786) on one key's slot: lock an
unlocked resident live value until `curTime + lockTimeout` and bump its
CAS from the HLC (`ENGINE_TMPFAIL` is `LockedTmpFail` here). -/
def VBucket.getLocked (ctx : VBCtx) (ht : HTSlot) (lockTimeout : Nat) :
    EngineCode × HTSlot :=
  let r := fetchValidValue ctx ht true true
  match r.1 with
  | some v =>
    if v.deleted || v.isTempNonExistentItem || v.isTempDeletedItem then
      (.KeyNotFound, r.2)
    else if v.isLocked ctx.curTime then (.LockedTmpFail, r.2)
    else if !v.resident then (.WouldBlock, r.2)
    else
      let v1 := { v with lockExpiry := ctx.curTime + lockTimeout
                         cas := ctx.hlcCas }
      (.Success, { r.2 with slot := some v1 })
  | none =>
    match ctx.eviction with
    | .valueOnly => (.KeyNotFound, r.2)
    | .fullEviction =>
      if ctx.bloomMaybe then addTempItemAndBGFetch ctx r.2
      else (.KeyNotFound, r.2)

/-! ## Durability monitor

The `DurabilityMonitor` implementation is code of this repository that is
not under `src/` (only its test suite,
`src/engines/ep/tests/module_tests/durability_monitor_test.cc`, is).  The
monitor below is modelled from the spec (§4.2): tracked sync writes in
seqno order, per-node memory/disk positions held as stable seqnos (the
spec's "stable keys" design note), iterator advancement to the greatest
tracked seqno not above the acked seqno, and commit checks per durability
level.  Two commit rules are defined: the spec's claimed majority
`⌈chain.size/2⌉` and the one the test suite exhibits,
`chain.size/2 + 1`. -/

/-- Durability level of a sync write (`cb::durability::Level`). -/
inductive Level where
  | Majority
  | MajorityAndPersistOnMaster
  | PersistToMajority
  deriving DecidableEq, Repr, Inhabited

/-- One tracked synchronous write.  Modelled from the spec:
`TrackedSyncWrites` entries carry a seqno and a durability level. -/
structure SyncWrite where
  seqno : Nat
  level : Level
  deriving DecidableEq, Repr, Inhabited

/-- Per-node positions.  Modelled from the spec: `(memoryIter,
memoryAckSeqno)` and `(diskIter, diskAckSeqno)`; the iterators are kept as
the seqno of the last tracked write reached (`lastWriteSeqno` in the
tests), which survives removals. -/
structure NodePos where
  memWrite : Nat
  memAck : Nat
  diskWrite : Nat
  diskAck : Nat
  deriving DecidableEq, Repr, Inhabited

/-- Initial node position (nothing acknowledged). -/
def NodePos.init : NodePos := ⟨0, 0, 0, 0⟩

/-- Durability monitor state.  Modelled from the spec: a replication chain
(first node is the active), per-node positions, and the ordered tracked
sync writes. -/
structure Monitor where
  chain : List String
  pos : List (String × NodePos)
  tracked : List SyncWrite
  deriving DecidableEq, Repr, Inhabited

/-- `setReplicationTopology`: fresh positions for every chain node.
Validation (non-empty, ≤ 4 nodes, no duplicates) is the caller's burden
and is not needed by the claims settled here. -/
def setReplicationTopology (chain : List String) : Monitor :=
  { chain := chain, pos := chain.map (fun n => (n, NodePos.init)),
    tracked := [] }

/-- Position of a node (sentinel start position for unknown nodes). -/
def Monitor.getPos (m : Monitor) (node : String) : NodePos :=
  (m.pos.lookup node).getD NodePos.init

/-- Replace a node's position. -/
def Monitor.setPos (m : Monitor) (node : String) (p : NodePos) : Monitor :=
  { m with pos := m.pos.map (fun kv => if kv.1 = node then (kv.1, p) else kv) }

/-- Greatest tracked seqno that is ≤ the acked seqno, starting from the
node's current write position (iterator advancement of the spec's ack
protocol). -/
def advanceTo (tracked : List SyncWrite) (cur ack : Nat) : Nat :=
  tracked.foldl (fun acc w => if w.seqno ≤ ack then max acc w.seqno else acc)
    cur

/-- Advance a node's memory position and ack seqno. -/
def Monitor.advanceNodeMemory (m : Monitor) (node : String) (ack : Nat) :
    Monitor :=
  let p := m.getPos node
  m.setPos node
    { p with memWrite := advanceTo m.tracked p.memWrite ack, memAck := ack }

/-- Advance a node's disk position and ack seqno. -/
def Monitor.advanceNodeDisk (m : Monitor) (node : String) (ack : Nat) :
    Monitor :=
  let p := m.getPos node
  m.setPos node
    { p with diskWrite := advanceTo m.tracked p.diskWrite ack,
             diskAck := ack }

/-- Number of chain nodes whose memory position has reached seqno `s`. -/
def Monitor.nodesWithMemGE (m : Monitor) (s : Nat) : Nat :=
  (m.chain.filter (fun n => s ≤ (m.getPos n).memWrite)).length

/-- Number of chain nodes whose disk position has reached seqno `s`. -/
def Monitor.nodesWithDiskGE (m : Monitor) (s : Nat) : Nat :=
  (m.chain.filter (fun n => s ≤ (m.getPos n).diskWrite)).length

/-- Disk position of the active (first chain) node. -/
def Monitor.activeDiskWrite (m : Monitor) : Nat :=
  (m.getPos (m.chain.headD "")).diskWrite

/-- Majority as the durability-monitor code and its test suite compute it:
`chain.size/2 + 1` nodes (the size-4 chain of
`SeqnoAckReceived_MultipleReplica` needs three acks). -/
def Monitor.majority (m : Monitor) : Nat :=
  m.chain.length / 2 + 1

/-- Majority as the spec writes it: `⌈chain.size/2⌉` nodes. -/
def Monitor.majorityCeil (m : Monitor) : Nat :=
  (m.chain.length + 1) / 2

/-- Commit condition per durability level (spec §4.2), parameterised by
the majority count. -/
def Monitor.isCommittedWith (m : Monitor) (maj : Nat) (w : SyncWrite) :
    Bool :=
  match w.level with
  | .Majority => maj ≤ m.nodesWithMemGE w.seqno
  | .MajorityAndPersistOnMaster =>
    (maj ≤ m.nodesWithMemGE w.seqno) && (w.seqno ≤ m.activeDiskWrite)
  | .PersistToMajority => maj ≤ m.nodesWithDiskGE w.seqno

/-- Remove every tracked write whose commit condition holds (majority as
the code/tests have it). -/
def Monitor.removeCommitted (m : Monitor) : Monitor :=
  { m with tracked :=
      m.tracked.filter (fun w => !m.isCommittedWith m.majority w) }

/-- Remove every tracked write whose commit condition holds under the
spec's claimed `⌈chain.size/2⌉` majority. -/
def Monitor.removeCommittedCeil (m : Monitor) : Monitor :=
  { m with tracked :=
      m.tracked.filter (fun w => !m.isCommittedWith m.majorityCeil w) }

/-- `seqnoAckReceived(node, memSeqno, diskSeqno)`: advance the node's
memory then disk positions and commit what the acknowledgements allow.
Preconditions (`memSeqno ≥ diskSeqno`, per-node monotonicity) are fatal
errors in the source and are assumed by the theorems. -/
def Monitor.seqnoAckReceived (m : Monitor) (node : String)
    (memSeqno diskSeqno : Nat) : Monitor :=
  ((m.advanceNodeMemory node memSeqno).advanceNodeDisk node
    diskSeqno).removeCommitted

/-- `seqnoAckReceived` under the spec's claimed majority. -/
def Monitor.seqnoAckReceivedCeil (m : Monitor) (node : String)
    (memSeqno diskSeqno : Nat) : Monitor :=
  ((m.advanceNodeMemory node memSeqno).advanceNodeDisk node
    diskSeqno).removeCommittedCeil

/-- `addSyncWrite`: append the write (strictly increasing seqnos) and
implicitly acknowledge the active node's memory position, the write
having already been enqueued in the checkpoint (spec §4.2). -/
def Monitor.addSyncWrite (m : Monitor) (w : SyncWrite) : Monitor :=
  let m1 : Monitor := { m with tracked := m.tracked ++ [w] }
  m1.advanceNodeMemory (m.chain.headD "") w.seqno

/-- `notifyLocalPersistence`: advance the active node's disk position to
the vbucket's persistence seqno and re-run the commit check. -/
def Monitor.notifyLocalPersistence (m : Monitor)
    (persistenceSeqno : Nat) : Monitor :=
  (m.advanceNodeDisk (m.chain.headD "") persistenceSeqno).removeCommitted

/-- The tracked-write count the test
`DurabilityMonitorTest.SeqnoAckReceived_MultipleReplica`
(durability_monitor_test.cc:362-371) asserts right after the second node
of the four-node chain (active plus `replica2`) has reached the write:
still one tracked write, commit arriving only with the third node. -/
def multipleReplicaExpectedTrackedAfterReplica2 : Nat := 1

/-! ## Collections manifest (`collections/vbucket_manifest.cc`) -/

/-- The default collection's id (`CollectionID::Default`). -/
def defaultCID : Nat := 0

/-- The system collection namespace id (`CollectionID::System`). -/
def systemCID : Nat := 1

/-- A per-collection manifest entry (`Collections::VB::ManifestEntry`):
start/end seqnos, `endSeqno = state_collection_open` meaning open. -/
structure ManifestEntry where
  startSeqno : Int
  endSeqno : Int
  deriving DecidableEq, Repr, Inhabited

/-- Open test.  Modelled from the spec: `endSeqno == open-sentinel` means
open (`ManifestEntry::isOpen`; the header is not under `src/`). -/
def ManifestEntry.isOpen (e : ManifestEntry) : Bool :=
  e.endSeqno == state_collection_open

/-- Deleting test (`ManifestEntry::isDeleting`). -/
def ManifestEntry.isDeleting (e : ManifestEntry) : Bool :=
  !e.isOpen

/-- Per-vbucket collections manifest state
(`Collections::VB::Manifest`). -/
structure VBManifest where
  manifestUid : Nat
  map : List (Nat × ManifestEntry)
  defaultCollectionExists : Bool
  greatestEndSeqno : Int
  nDeletingCollections : Nat
  deriving DecidableEq, Repr, Inhabited

/-- `Manifest::trackEndSeqno` (vbucket_manifest.cc:587-593). -/
def VBManifest.trackEndSeqno (m : VBManifest) (seqno : Int) : VBManifest :=
  { m with
    nDeletingCollections := m.nDeletingCollections + 1
    greatestEndSeqno :=
      if seqno > m.greatestEndSeqno ||
          (m.greatestEndSeqno == state_collection_open) then seqno
      else m.greatestEndSeqno }

/-- Kind of a queued system event (`SystemEvent`). -/
inductive SystemEventKind where
  | Collection
  | DeleteCollectionHard
  deriving DecidableEq, Repr, Inhabited

/-- A system event as it lands in the checkpoint: the collection, whether
the item is marked deleted (collection end), the `manifestUid` serialised
into its value, and its seqno. -/
structure SysEvent where
  kind : SystemEventKind
  cid : Nat
  deleted : Bool
  uid : Nat
  seqno : Int
  deriving DecidableEq, Repr, Inhabited

/-- The observable part of a system event the claims talk about:
collection, begin/end polarity and the carried `manifestUid`. -/
def SysEvent.info (e : SysEvent) : Nat × Bool × Nat :=
  (e.cid, e.deleted, e.uid)

/-- Manifest together with its vbucket's seqno counter and the stream of
queued system events. -/
structure MState where
  man : VBManifest
  vbSeqno : Int
  events : List SysEvent
  deriving DecidableEq, Repr, Inhabited

/-- `Manifest::queueSystemEvent` (vbucket_manifest.cc:452-467) with
`GenerateBySeqno::Yes`: the event gets the next vbucket seqno and carries
the manifest's current uid in its serialised value. -/
def queueSystemEvent (st : MState) (kind : SystemEventKind) (cid : Nat)
    (deleted : Bool) : MState × Int :=
  let s := st.vbSeqno + 1
  ({ st with
     vbSeqno := s
     events := st.events ++ [⟨kind, cid, deleted, st.man.manifestUid, s⟩] },
   s)

/-- Update one collection's `endSeqno` in the map (in-place entry
mutation; keys are untouched). -/
def mapSetEnd (map : List (Nat × ManifestEntry)) (cid : Nat) (s : Int) :
    List (Nat × ManifestEntry) :=
  map.map (fun kv =>
    if kv.1 = cid then (kv.1, { kv.2 with endSeqno := s }) else kv)

/-- Update one collection's `startSeqno` in the map. -/
def mapSetStart (map : List (Nat × ManifestEntry)) (cid : Nat) (s : Int) :
    List (Nat × ManifestEntry) :=
  map.map (fun kv =>
    if kv.1 = cid then (kv.1, { kv.2 with startSeqno := s }) else kv)

/-- `Manifest::beginCollectionDelete` (vbucket_manifest.cc:233-265): find
the entry (logic error if absent), record the given uid, queue a deleted
collection event, drop `defaultCollectionExists` for the default
collection, set the entry's `endSeqno` to the event seqno and track it. -/
def beginCollectionDelete (st : MState) (uid : Nat) (cid : Nat) :
    Except String MState :=
  if (st.man.map.lookup cid).isNone then
    .error "did not find collection"
  else
    let st1 : MState := { st with man := { st.man with manifestUid := uid } }
    let q := queueSystemEvent st1 .Collection cid true
    let st2 := q.1
    let seqno := q.2
    let man3 : VBManifest :=
      { st2.man with
        defaultCollectionExists :=
          if cid = defaultCID then false
          else st2.man.defaultCollectionExists
        map := mapSetEnd st2.man.map cid seqno }
    .ok { st2 with man := man3.trackEndSeqno seqno }

/-- `Manifest::addCollection` (vbucket_manifest.cc:158-206): insert a
fresh `0, open` entry (logic error if one exists), record the given uid,
queue a collection-begin event and patch the entry's `startSeqno` with the
event seqno. -/
def addCollection (st : MState) (uid : Nat) (cid : Nat) :
    Except String MState :=
  if (st.man.map.lookup cid).isSome then
    .error "cannot add collection"
  else
    let man1 : VBManifest :=
      { st.man with
        defaultCollectionExists :=
          if cid = defaultCID then true else st.man.defaultCollectionExists
        map := st.man.map ++ [(cid, ⟨0, state_collection_open⟩)]
        manifestUid := uid }
    let q := queueSystemEvent { st with man := man1 } .Collection cid false
    .ok { q.1 with man := { q.1.man with
            map := mapSetStart q.1.man.map cid q.2 } }

/-- `Manifest::processManifest` (vbucket_manifest.cc:306-335): diff the
open collections against the new declaration; reject (none) when the new
declaration re-adds a deleting collection. -/
def processManifest (m : VBManifest) (newCols : List Nat) :
    Option (List Nat × List Nat) :=
  let deletions :=
    (m.map.filter (fun kv => kv.2.isOpen && !(newCols.contains kv.1))).map
      Prod.fst
  if newCols.any (fun c =>
      match m.map.lookup c with
      | some e => e.isDeleting
      | none => false) then none
  else some (newCols.filter (fun c => (m.map.lookup c).isNone), deletions)

/-- `Manifest::update` together with `applyChanges`
(vbucket_manifest.cc:95-156): apply all deletions first (all but the last
with the still-current uid), the last deletion getting the *new* uid only
when there are no additions, then the additions, the last of which gets
the new uid. -/
def Manifest.update (st : MState) (newUid : Nat) (newCols : List Nat) :
    Except String (Bool × MState) :=
  match processManifest st.man newCols with
  | none => .ok (false, st)
  | some changes => do
    let additions := changes.1
    let deletions := changes.2
    let oldUid := st.man.manifestUid
    let st1 ← deletions.dropLast.foldlM
      (fun s c => beginCollectionDelete s oldUid c) st
    deletions.getLast?.elim
      (do
        let st3 ← additions.dropLast.foldlM
          (fun s c => addCollection s oldUid c) st1
        additions.getLast?.elim (pure (true, st3))
          (fun fa => do
            let st4 ← addCollection st3 newUid fa
            pure (true, st4)))
      (fun fd =>
        if additions.isEmpty then do
          let st2 ← beginCollectionDelete st1 newUid fd
          pure (true, st2)
        else do
          let st2 ← beginCollectionDelete st1 oldUid fd
          let st3 ← additions.dropLast.foldlM
            (fun s c => addCollection s oldUid c) st2
          additions.getLast?.elim (pure (true, st3))
            (fun fa => do
              let st4 ← addCollection st3 newUid fa
              pure (true, st4)))

/-- Outcome of `ManifestEntry::completeDeletion`.  Modelled from the spec:
the entry-level helper is not under `src/`; per the spec, completing a
deletion removes the entry and emits `DeleteCollectionHard`. -/
def entryCompleteDeletion (_e : ManifestEntry) : SystemEventKind :=
  .DeleteCollectionHard

/-- `Manifest::completeDeletion` (vbucket_manifest.cc:278-304): erase the
entry (hard delete), decrement `nDeletingCollections`, reset
`greatestEndSeqno` when it reaches zero, and queue the completion event. -/
def completeDeletion (st : MState) (cid : Nat) : Except String MState :=
  match st.man.map.lookup cid with
  | none => .error "could not find collection"
  | some e =>
    let se := entryCompleteDeletion e
    let map1 :=
      if se = .DeleteCollectionHard then
        st.man.map.filter (fun kv => kv.1 != cid)
      else st.man.map
    let nd := st.man.nDeletingCollections - 1
    let man1 : VBManifest :=
      { st.man with
        map := map1
        nDeletingCollections := nd
        greatestEndSeqno :=
          if nd = 0 then state_collection_open
          else st.man.greatestEndSeqno }
    .ok (queueSystemEvent { st with man := man1 } se cid false).1

/-- A document key as the manifest sees it: its collection id, plus the
collection id embedded in the key bytes for system-event keys
(`Manifest::getCollectionIDFromKey`). -/
structure DocKey where
  cid : Nat
  sysPayload : Nat
  deriving DecidableEq, Repr, Inhabited

/-- `Manifest::isLogicallyDeleted` (vbucket_manifest.cc:359-376). -/
def isLogicallyDeleted (m : VBManifest) (key : DocKey) (seqno : Int) :
    Bool :=
  if seqno ≤ m.greatestEndSeqno then
    if key.cid = defaultCID then !m.defaultCollectionExists
    else
      let lookup := if key.cid = systemCID then key.sysPayload else key.cid
      match m.map.lookup lookup with
      | some e => seqno ≤ e.endSeqno
      | none => false
  else false

/-! ### Manifest JSON serialisation (for the round-trip claim)

`serialToJson` (vbucket_manifest.cc:559-579) renders the serialised entry
array as `{"uid":"<hex>","collections":[{...},...]}`; the `Manifest`
constructor (vbucket_manifest.cc:37-93) parses it back.  The string form
of numbers is modelled as sign + digit list; `SerialisedManifestEntry::
toJson` and `makeUid`/`makeCollectionID` are not under `src/` and are
modelled from the spec's `{uid,startSeqno,endSeqno}` JSON shape with hex
uids and decimal seqnos. -/

/-- Hex rendering of a uid (`std::hex`), as its base-16 digit string. -/
def natToHexDigits (n : Nat) : List Nat := Nat.digits 16 n

/-- `makeUid` / `makeCollectionID`: parse a hex digit string. -/
def makeUid (ds : List Nat) : Nat := Nat.ofDigits 16 ds

/-- Decimal rendering of a (possibly negative) seqno, as sign flag plus
base-10 digit string. -/
def intSerial (i : Int) : Bool × List Nat :=
  (decide (i < 0), Nat.digits 10 i.natAbs)

/-- `std::stoll`: parse a sign flag plus decimal digit string. -/
def stollModel (p : Bool × List Nat) : Int :=
  if p.1 then -((Nat.ofDigits 10 p.2 : Nat) : Int)
  else ((Nat.ofDigits 10 p.2 : Nat) : Int)

/-- One collection object of the persisted JSON. -/
structure EntryJson where
  uid : List Nat
  startSeqno : Bool × List Nat
  endSeqno : Bool × List Nat
  deriving DecidableEq, Repr, Inhabited

/-- The persisted manifest JSON `{uid, collections:[...]}`. -/
structure ManifestJson where
  uid : List Nat
  collections : List EntryJson
  deriving DecidableEq, Repr, Inhabited

/-- `SerialisedManifestEntry::toJson`, modelled from the spec's entry
shape. -/
def entryToJson (cid : Nat) (e : ManifestEntry) : EntryJson :=
  ⟨natToHexDigits cid, intSerial e.startSeqno, intSerial e.endSeqno⟩

/-- `Manifest::populateWithSerialisedData`
(vbucket_manifest.cc:482-516): every entry except the changed collection,
in map order, followed by the changed collection's entry. -/
def populateWithSerialisedData (m : VBManifest) (identifier : Nat) :
    List (Nat × ManifestEntry) :=
  m.map.filter (fun kv => kv.1 != identifier) ++
    [(identifier, (m.map.lookup identifier).getD ⟨0, state_collection_open⟩)]

/-- `Manifest::serialToJson` (vbucket_manifest.cc:559-579) over a
serialised entry array. -/
def serialToJson (uid : Nat) (entries : List (Nat × ManifestEntry)) :
    ManifestJson :=
  ⟨natToHexDigits uid, entries.map (fun kv => entryToJson kv.1 kv.2)⟩

/-- One constructor loop iteration (vbucket_manifest.cc:74-92):
`addNewCollectionEntry` (logic error on a duplicate collection, deleting
entries tracked) plus the default-collection bookkeeping. -/
def ctorStep (m : VBManifest) (c : EntryJson) : Except String VBManifest :=
  let cid := makeUid c.uid
  let s := stollModel c.startSeqno
  let e := stollModel c.endSeqno
  if (m.map.lookup cid).isSome then .error "collection already exists"
  else
    let entry : ManifestEntry := ⟨s, e⟩
    let m1 : VBManifest := { m with map := m.map ++ [(cid, entry)] }
    let m2 := if entry.isDeleting then m1.trackEndSeqno e else m1
    .ok (if cid = defaultCID then
          { m2 with defaultCollectionExists := entry.isOpen }
         else m2)

/-- The `Manifest` constructor from persisted JSON
(vbucket_manifest.cc:37-93). -/
def manifestFromJson (j : ManifestJson) : Except String VBManifest :=
  j.collections.foldlM ctorStep
    { manifestUid := makeUid j.uid
      map := []
      defaultCollectionExists := false
      greatestEndSeqno := state_collection_open
      nDeletingCollections := 0 }

/-! ### Concrete collection scenarios used by the claims -/

/-- Extract an `Except`'s payload with an explicit fallback. -/
def exceptGetD (x : Except String MState) (d : MState) : MState :=
  match x with
  | .ok s => s
  | .error _ => d

/-- The manifest the empty-string constructor builds
(vbucket_manifest.cc:41-47): just the open default collection. -/
def emptyCtorManifest : VBManifest :=
  { manifestUid := 0
    map := [(defaultCID, ⟨0, state_collection_open⟩)]
    defaultCollectionExists := true
    greatestEndSeqno := state_collection_open
    nDeletingCollections := 0 }

/-- Fallback state for the concrete scenarios (never reached). -/
def mstFallback : MState := ⟨emptyCtorManifest, 0, []⟩

/-- Scenario S6 start: fresh manifest, vbucket at seqno 4. -/
def c6st0 : MState := ⟨emptyCtorManifest, 4, []⟩

/-- S6: open collection 9 (uid 1); its begin event gets seqno 5. -/
def c6stOpen : MState :=
  exceptGetD ((Manifest.update c6st0 1 [defaultCID, 9]).map Prod.snd)
    mstFallback

/-- S6: three writes in the collection land at seqnos 6, 7, 8. -/
def c6stWrites : MState := { c6stOpen with vbSeqno := c6stOpen.vbSeqno + 3 }

/-- S6: begin deleting collection 9 (uid 2); the end event gets seqno 9. -/
def c6stDeleting : MState :=
  exceptGetD ((Manifest.update c6stWrites 2 [defaultCID]).map Prod.snd)
    mstFallback

/-- S6: complete the deletion of collection 9. -/
def c6stCompleted : MState :=
  exceptGetD (completeDeletion c6stDeleting 9) mstFallback

/-- A key of collection 9. -/
def c6key : DocKey := ⟨9, 0⟩

/-- Manifest for the C5 counterexample: uid 7, open default, open
collection 8. -/
def c5man : VBManifest :=
  { manifestUid := 7
    map := [(defaultCID, ⟨0, state_collection_open⟩),
            (8, ⟨1, state_collection_open⟩)]
    defaultCollectionExists := true
    greatestEndSeqno := state_collection_open
    nDeletingCollections := 0 }

/-- State for the C5 counterexample. -/
def c5st : MState := ⟨c5man, 5, []⟩

/-- The state after updating `c5st` to uid 9 with collection 8 deleted
and collection 11 added. -/
def c5updated : MState :=
  exceptGetD ((Manifest.update c5st 9 [defaultCID, 11]).map Prod.snd)
    mstFallback

/-! ## Item pager (ItemPager / PagingVisitor, src/unnamed/part_001)

Doubles are modelled as rationals; the claims are about which expressions
are computed, not rounding. -/

/-- The memory watermarks read from `EPStats`. -/
structure PagerWatermarks where
  lower : Rat
  upper : Rat
  deriving DecidableEq, Repr, Inhabited

/-- The 2-bit-LRU walk phase (`item_pager_phase`). -/
inductive PagerPhase where
  | unreferenced
  | random
  deriving DecidableEq, Repr, Inhabited

/-- Mutable `ItemPager` task state (part_001:2175-2186). -/
structure ItemPagerState where
  multiplier : Rat
  doEvict : Bool
  available : Bool
  notified : Bool
  phase : PagerPhase
  deriving DecidableEq, Repr, Inhabited

/-- The `ItemPager` constructor state (part_001:2175-2186):
`available(true)`, `phase(PAGING_UNREFERENCED)`, `doEvict(false)`,
`evictionMultiplier(0.0)`. -/
def ItemPager.init : ItemPagerState :=
  { multiplier := 0, doEvict := false, available := true, notified := false,
    phase := .unreferenced }

/-- The arguments `ItemPager::run` hands to the `PagingVisitor` it
constructs (part_001:2239-2248). -/
structure PagingVisitorParams where
  percent : Rat
  activeBias : Rat
  evictionPercent : Rat
  deriving DecidableEq, Repr, Inhabited

/-- `ItemPager::run` (part_001:2188-2261): decide whether to page, and if
so compute `toKill`, the active-vbucket bias and `evictionPercent`, and
spawn the visitor. -/
def itemPagerRun (st : ItemPagerState) (wm : PagerWatermarks)
    (current : Rat) (policy : EvictionPolicy) (activeEvictPcnt : Nat) :
    Option PagingVisitorParams × ItemPagerState :=
  let wasNotified := st.notified
  let st1 : ItemPagerState := { st with notified := false }
  let st2 : ItemPagerState :=
    if current ≤ wm.lower then { st1 with doEvict := false } else st1
  if (decide (current > wm.upper) || st2.doEvict || wasNotified) &&
      st2.available then
    let st3 : ItemPagerState := { st2 with available := false }
    let st4 : ItemPagerState :=
      if policy == .valueOnly then { st3 with doEvict := true } else st3
    let toKill := (current - wm.lower) / current
    let bias := (activeEvictPcnt : Rat) / 50
    let evictionPercent :=
      ((current - wm.lower) / current) * (1 + st4.multiplier)
    (some ⟨toKill, bias, evictionPercent⟩, st4)
  else (none, st2)

/-- What one `PagingVisitor::visitBucket` call observes: the vbucket's
state, the fresh memory reading, and the bucket-wide resident
percentages. -/
structure VisitObs where
  vbState : VBState
  mem : Rat
  activeRes : Rat
  replicaRes : Rat
  deriving DecidableEq, Repr, Inhabited

/-- The `completePhase` effect of one item-pager `visitBucket`
(part_001:1945-2005): skipped active vbuckets and evicting visits leave
the flag alone; a visit whose memory reading is at or below the low
watermark clears it (eviction stops). -/
def visitBucketStep (wm : PagerWatermarks) (completePhase : Bool)
    (o : VisitObs) : Bool :=
  if (o.vbState == .active) && decide (o.mem < wm.upper) &&
      decide (o.activeRes < o.replicaRes) then
    completePhase
  else if decide (o.mem > wm.lower) then completePhase
  else false

/-- The `completePhase` value after a whole pass (initially `true`,
part_001:1881). -/
def pagingVisitorCompletePhase (wm : PagerWatermarks)
    (obs : List VisitObs) : Bool :=
  obs.foldl (visitBucketStep wm) true

/-- The eviction-multiplier update of `PagingVisitor::complete`
(part_001:2066-2086): increase by 0.05 when the pass never observed
memory at or below the low watermark, reset to 0 otherwise. -/
def pagingVisitorComplete (multiplier : Rat) (completePhase : Bool) :
    Rat :=
  if completePhase then multiplier + 5 / 100 else 0

/-- Whether some visit of the pass stopped eviction: it was not skipped as
a healthy active vbucket and observed memory at or below the low
watermark. -/
def passReachedLowWM (wm : PagerWatermarks) (obs : List VisitObs) : Bool :=
  obs.any (fun o =>
    !((o.vbState == .active) && decide (o.mem < wm.upper) &&
        decide (o.activeRes < o.replicaRes)) &&
      !(decide (o.mem > wm.lower)))

/-! ## Concrete states used by witnesses and counterexamples -/

/-- An expired (`exptime 10 < realNow 20`) and still-locked
(`curTime 50 < lockExpiry 100`) live stored value. -/
def c2v : StoredValue :=
  { value := some 1, datatypeXattr := false, cas := 5, revSeqno := 1,
    bySeqno := 1, flags := 0, exptime := 10, deleted := false,
    dirty := false, resident := true, lockExpiry := 100 }

/-- Slot holding `c2v`. -/
def c2ht : HTSlot := ⟨some c2v, 0⟩

/-- Active value-only context at `realNow 20`, `curTime 50`. -/
def c2ctx : VBCtx :=
  { eviction := .valueOnly, vbState := .active, realNow := 20,
    curTime := 50, hlcCas := 99, nextSeqno := 2, hasSpace := true,
    bloomMaybe := true }

/-- A CAS set (cas 7, neither zero nor the stored 5) over `c2v`. -/
def c2itm : Item :=
  { value := some 2, datatypeXattr := false, cas := 7, revSeqno := 0,
    bySeqno := 0, flags := 0, exptime := 0, deleted := false }

/-- A live, unlocked, unexpired clean stored value with revision 1. -/
def c3v : StoredValue :=
  { value := some 1, datatypeXattr := false, cas := 5, revSeqno := 1,
    bySeqno := 1, flags := 0, exptime := 0, deleted := false,
    dirty := false, resident := true, lockExpiry := 0 }

/-- Slot holding `c3v` with `maxDeletedRevSeqno = 5 >` its revision. -/
def c3ht : HTSlot := ⟨some c3v, 5⟩

/-- Plain active context. -/
def c3ctx : VBCtx :=
  { eviction := .valueOnly, vbState := .active, realNow := 10,
    curTime := 10, hlcCas := 99, nextSeqno := 2, hasSpace := true,
    bloomMaybe := true }

/-- A plain (cas 0) mutation item. -/
def c3itm : Item :=
  { value := some 2, datatypeXattr := false, cas := 0, revSeqno := 0,
    bySeqno := 0, flags := 0, exptime := 0, deleted := false }

/-- A live, unlocked, unexpired resident value to be locked. -/
def c4v : StoredValue :=
  { value := some 3, datatypeXattr := false, cas := 11, revSeqno := 4,
    bySeqno := 7, flags := 0, exptime := 0, deleted := false,
    dirty := false, resident := true, lockExpiry := 0 }

/-- Slot holding `c4v`. -/
def c4ht : HTSlot := ⟨some c4v, 0⟩

/-- Context whose HLC would issue CAS 42 at `curTime 10`. -/
def c4ctx : VBCtx :=
  { eviction := .valueOnly, vbState := .active, realNow := 10,
    curTime := 10, hlcCas := 42, nextSeqno := 8, hasSpace := true,
    bloomMaybe := true }

/-- A locked (`lockExpiry 100`), unexpired live value, as `setWithMeta`
with `allowExisting = false` would meet it. -/
def c4bv : StoredValue :=
  { value := some 3, datatypeXattr := false, cas := 11, revSeqno := 4,
    bySeqno := 7, flags := 0, exptime := 0, deleted := false,
    dirty := false, resident := true, lockExpiry := 100 }

/-- Slot holding `c4bv`. -/
def c4bht : HTSlot := ⟨some c4bv, 0⟩

/-- A temp-non-existent placeholder stored value. -/
def c9v : StoredValue :=
  { value := none, datatypeXattr := false, cas := 0, revSeqno := 3,
    bySeqno := state_non_existent_key, flags := 0, exptime := 0,
    deleted := false, dirty := false, resident := true, lockExpiry := 0 }

/-- Slot holding the placeholder `c9v`. -/
def c9ht : HTSlot := ⟨some c9v, 3⟩

/-- Full-eviction active context. -/
def c9ctxFull : VBCtx :=
  { eviction := .fullEviction, vbState := .active, realNow := 10,
    curTime := 10, hlcCas := 42, nextSeqno := 8, hasSpace := true,
    bloomMaybe := true }

/-- Value-only active context. -/
def c9ctxVal : VBCtx :=
  { eviction := .valueOnly, vbState := .active, realNow := 10,
    curTime := 10, hlcCas := 42, nextSeqno := 8, hasSpace := true,
    bloomMaybe := true }

/-- Get options carrying `DELETE_TEMP`. -/
def c9opts : GetOptions :=
  { trackReference := false, metadataOnly := false,
    getDeletedValue := false, bgFetchRequired := false,
    deleteTemp := true, hideLockedCas := false }

/-- The three-node chain of the claim's scenario with one tracked Majority
write at seqno 1 (active has implicitly acked). -/
def c1m3 : Monitor :=
  (setReplicationTopology ["active", "r1", "r2"]).addSyncWrite
    ⟨1, .Majority⟩

/-- The four-node chain of
`DurabilityMonitorTest.SeqnoAckReceived_MultipleReplica` with one tracked
Majority write at seqno 1. -/
def c1m4 : Monitor :=
  (setReplicationTopology
      ["active", "replica1", "replica2", "replica3"]).addSyncWrite
    ⟨1, .Majority⟩

/-- The stored value the C3 witness mutation produces. -/
def c3sv : StoredValue :=
  { value := some 2, datatypeXattr := false, cas := 99, revSeqno := 2,
    bySeqno := 2, flags := 0, exptime := 0, deleted := false,
    dirty := true, resident := true, lockExpiry := 0 }

/-- The value `c4v` as `getLocked` leaves it: locked until 25, CAS 42. -/
def c4lv : StoredValue := { c4v with lockExpiry := 25, cas := 42 }

/-- Slot holding the locked `c4lv`. -/
def c4lht : HTSlot := ⟨some c4lv, 0⟩

/-! ## Theorems -/

/-- A temporary placeholder has exptime 0 in every reachable state
(placeholders are created with `exp 0`, vbucket.cc:2231-2239), so an
expired value is never a temp item. -/
theorem isTempItem_false_of_expired (v : StoredValue) (now : Nat)
    (hexp : v.isExpired now = true)
    (hwf : v.isTempItem = true → v.exptime = 0) :
    v.isTempItem = false := by
  cases h : v.isTempItem
  · rfl
  · exfalso
    have h0 := hwf h
    rw [StoredValue.isExpired, h0] at hexp
    simp at hexp

/-- A non-temp value is in particular not a temp-initial placeholder. -/
theorem isTempInitial_false_of_not_temp (v : StoredValue)
    (h : v.isTempItem = false) : v.isTempInitialItem = false := by
  rw [StoredValue.isTempItem] at h
  simp only [Bool.or_eq_false_iff] at h
  exact h.1.1

/-- A non-temp value is no kind of temp placeholder. -/
theorem temp_decomp (v : StoredValue) (h : v.isTempItem = false) :
    v.isTempInitialItem = false ∧ v.isTempDeletedItem = false ∧
      v.isTempNonExistentItem = false := by
  rw [StoredValue.isTempItem] at h
  simp only [Bool.or_eq_false_iff] at h
  exact ⟨h.1.1, h.1.2, h.2⟩

/-- A temp-non-existent or temp-deleted placeholder is not temp-initial
(the sentinels differ). -/
theorem tempNE_not_initial (v : StoredValue)
    (h : v.isTempNonExistentItem = true ∨ v.isTempDeletedItem = true) :
    v.isTempInitialItem = false := by
  rcases h with h | h <;>
    · simp only [StoredValue.isTempNonExistentItem,
        StoredValue.isTempDeletedItem, StoredValue.isTempInitialItem,
        state_temp_init, state_non_existent_key, state_deleted_key,
        beq_iff_eq, beq_eq_false_iff_ne, ne_eq] at *
      omega

/-- A placeholder with no lock set is never locked. -/
theorem not_locked_of_lockExpiry_zero (v : StoredValue) (t : Nat)
    (h : v.lockExpiry = 0) : v.isLocked t = false := by
  simp [StoredValue.isLocked, h]

/-- C2 (amended): a nonzero-CAS set over an existing expired value (no
external metadata, incoming item not deleted) returns NotFound, surfaced
as KeyNotFound; the hash table is unchanged except that a lock held on
the expired value is released. -/
theorem C2_cas_over_expired (ctx : VBCtx) (ht : HTSlot) (v : StoredValue)
    (itm : Item)
    (hv : ht.slot = some v)
    (hexp : v.isExpired ctx.realNow = true)
    (hitm : itm.deleted = false)
    (hcas : itm.cas ≠ 0)
    (hspace : ctx.hasSpace = true)
    (hstate : ctx.vbState = .active)
    (hwf : v.isTempItem = true → v.exptime = 0) :
    VBucket.set ctx ht itm =
      (.KeyNotFound,
       { ht with
         slot := some (if v.isLocked ctx.curTime then v.unlock else v) }) := by
  have htemp := isTempItem_false_of_expired v ctx.realNow hexp hwf
  have htinit := isTempInitial_false_of_not_temp v htemp
  have hcop : (itm.cas != 0) = true := by simpa [bne_iff_ne] using hcas
  obtain ⟨s, m⟩ := ht
  replace hv : s = some v := hv
  subst hv
  rw [VBucket.set]
  simp only [hstate, hspace, htinit, hexp, hitm, hcop, Option.elim,
    Bool.and_false, Bool.false_and, Bool.and_true, Bool.true_and,
    Bool.not_false, Bool.not_true, Bool.or_self, if_false, if_true]
  rw [processSet]
  simp [hspace, htinit, hexp, hitm, hcop]

/-- Witness for C2 at the concrete expired-and-locked value `c2v`. -/
theorem C2_cas_over_expired_witness :
    VBucket.set c2ctx c2ht c2itm =
      (.KeyNotFound,
       { c2ht with
         slot := some (if c2v.isLocked c2ctx.curTime then c2v.unlock else c2v) }) :=
  C2_cas_over_expired c2ctx c2ht c2v c2itm rfl (by decide) rfl (by decide)
    rfl rfl (by decide)

/-- Counterexample for C2 as stated: on the expired and still-locked
`c2v`, the nonzero-CAS set returns KeyNotFound but does *not* leave the
stored value unchanged (the lock is released). -/
theorem C2_counterexample :
    (VBucket.set c2ctx c2ht c2itm).1 = .KeyNotFound ∧
      (VBucket.set c2ctx c2ht c2itm).2 ≠ c2ht ∧
      c2v.isLocked c2ctx.curTime = true ∧
      c2v.isExpired c2ctx.realNow = true := by decide

/-- A value freshly created through the mutation path gets a generated
(non-negative) by-seqno, so it is never a temp placeholder. -/
theorem addNewStoredValue_isTempItem (ctx : VBCtx) (itm : Item) :
    (addNewStoredValue ctx itm).isTempItem = false := by
  simp only [addNewStoredValue, StoredValue.isTempItem,
    StoredValue.isTempInitialItem, StoredValue.isTempDeletedItem,
    StoredValue.isTempNonExistentItem, state_temp_init, state_deleted_key,
    state_non_existent_key, Bool.or_eq_false_iff, beq_eq_false_iff_ne,
    ne_eq]
  omega

/-- Unlocking does not change the revision. -/
theorem unlock_revSeqno (v : StoredValue) :
    v.unlock.revSeqno = v.revSeqno := rfl

/-- The updated stored value takes the item's revision. -/
theorem updateStoredValue_snd_revSeqno (ctx : VBCtx) (v : StoredValue)
    (itm : Item) : ((updateStoredValue ctx v itm).2).revSeqno =
      itm.revSeqno := rfl

/-- Helper for the revision claim: any success of `processSetMain`
without metadata assigns `prior + 1` over an existing value, and
`maxDeletedRevSeqno + 1` over an absent one. -/
theorem processSetMain_revSeqno (ctx : VBCtx) (ht : HTSlot) (itm : Item)
    (cas : Nat) (allowExisting : Bool) (slotA : Option StoredValue)
    (st : MutationStatus) (ht2 : HTSlot) (sv : StoredValue)
    (h : processSetMain ctx ht itm cas allowExisting false slotA =
      (st, ht2, some sv)) :
    sv.revSeqno =
      match slotA with
      | some v => v.revSeqno + 1
      | none => ht.maxDeletedRevSeqno + 1 := by
  rcases slotA with _ | v
  all_goals rw [processSetMain] at h
  all_goals simp only [processSetUpdatePath] at h
  all_goals repeat' split at h
  all_goals
    simp_all [updateStoredValue_snd_revSeqno, addNewStoredValue_isTempItem,
      updateRevSeqNoOfNewStoredValue, unlock_revSeqno]
  all_goals first
    | rfl
    | (obtain ⟨-, -, rfl⟩ := h; rfl)
    | simp_all

/-- C3 (amended): a mutation without external metadata that succeeds
through `processSet` assigns revision `prior + 1` when a stored value
exists for the key, and `maxDeletedRevSeqno + 1` when none does. -/
theorem C3_revision_assignment (ctx : VBCtx) (ht : HTSlot) (itm : Item)
    (cas : Nat) (allowExisting maybeKeyExists : Bool)
    (st : MutationStatus) (ht2 : HTSlot) (sv : StoredValue)
    (h : processSet ctx ht itm cas allowExisting false maybeKeyExists =
      (st, ht2, some sv)) :
    sv.revSeqno =
      match ht.slot with
      | some v => v.revSeqno + 1
      | none => ht.maxDeletedRevSeqno + 1 := by
  obtain ⟨s, m⟩ := ht
  rw [processSet] at h
  rcases s with _ | v
  all_goals simp only [Option.elim] at h
  all_goals repeat' split at h
  all_goals first
    | (simp_all; done)
    | exact processSetMain_revSeqno _ _ _ _ _ _ _ _ _ h
    | (have h2 := processSetMain_revSeqno _ _ _ _ _ _ _ _ _ h
       simpa [unlock_revSeqno] using h2)

/-- Witness for C3 at the concrete value `c3v` (revision 1): the plain
set assigns revision 2. -/
theorem C3_revision_assignment_witness : c3sv.revSeqno = c3v.revSeqno + 1 :=
  C3_revision_assignment c3ctx c3ht c3itm 0 true true .WasClean
    ⟨some c3sv, 5⟩ c3sv (by decide)

/-- Counterexample for C3 as stated: over `c3v` (revision 1) with
`maxDeletedRevSeqno = 5`, the successful set assigns revision 2, not
`max(1, 5) + 1 = 6`. -/
theorem C3_counterexample :
    (processSet c3ctx c3ht c3itm 0 true false true).1 = .WasClean ∧
      (processSet c3ctx c3ht c3itm 0 true false true).2.2.map
          StoredValue.revSeqno = some 2 ∧
      c3ht.maxDeletedRevSeqno = 5 ∧ c3v.revSeqno = 1 ∧
      (2 : Nat) ≠ max c3v.revSeqno c3ht.maxDeletedRevSeqno + 1 := by decide

/-- A locked value is live (not deleted). -/
theorem deleted_false_of_locked (v : StoredValue) (t : Nat)
    (h : v.isLocked t = true) : v.deleted = false := by
  rw [StoredValue.isLocked] at h
  simp only [Bool.and_eq_true, Bool.not_eq_true'] at h
  exact h.1.1

/-- `getLocked` over an unlocked, unexpired, resident live value locks it
until `curTime + lockTimeout` and bumps its CAS from the HLC. -/
theorem getLocked_locks (ctx : VBCtx) (ht : HTSlot) (v : StoredValue)
    (lockTimeout : Nat)
    (hv : ht.slot = some v) (hdel : v.deleted = false)
    (htemp : v.isTempItem = false)
    (hlock : v.isLocked ctx.curTime = false) (hres : v.resident = true)
    (hexpF : v.isExpired ctx.realNow = false) :
    VBucket.getLocked ctx ht lockTimeout =
      (.Success,
       { ht with
         slot := some { v with lockExpiry := ctx.curTime + lockTimeout,
                               cas := ctx.hlcCas } }) := by
  obtain ⟨d1, d2, d3⟩ := temp_decomp v htemp
  obtain ⟨s, m⟩ := ht
  replace hv : s = some v := hv
  subst hv
  rw [VBucket.getLocked, fetchValidValue]
  simp [hdel, htemp, hexpF, hlock, hres, d2, d3]

/-- A write through `processSet` against a locked value presenting CAS 0
or a non-matching CAS fails `IsLocked` and changes nothing. -/
theorem processSet_locked_rejects (ctx : VBCtx) (ht : HTSlot)
    (v : StoredValue) (itm : Item) (cas : Nat) (maybeKeyExists : Bool)
    (hv : ht.slot = some v)
    (hlock : v.isLocked ctx.curTime = true)
    (htemp : v.isTempItem = false)
    (hexpF : v.isExpired ctx.realNow = false)
    (hspace : ctx.hasSpace = true)
    (hvc : v.cas ≠ 0)
    (hcas : cas = 0 ∨ cas ≠ v.cas) :
    processSet ctx ht itm cas true false maybeKeyExists =
      (.IsLocked, ht, none) := by
  obtain ⟨d1, d2, d3⟩ := temp_decomp v htemp
  have hne : (cas != v.cas) = true := by
    have h0 : cas ≠ v.cas := by
      rcases hcas with rfl | h
      · exact fun hh => hvc hh.symm
      · exact h
    simpa [bne_iff_ne] using h0
  obtain ⟨s, m⟩ := ht
  replace hv : s = some v := hv
  subst hv
  rw [processSet]
  simp [hspace, d1, hexpF, hlock, hne, processSetMain]

/-- A write through `processSet` presenting the matching CAS against a
locked, unexpired value unlocks it and proceeds with the update. -/
theorem processSet_matching_cas_unlocks (ctx : VBCtx) (ht : HTSlot)
    (v : StoredValue) (itm : Item) (maybeKeyExists : Bool)
    (hv : ht.slot = some v)
    (hlock : v.isLocked ctx.curTime = true)
    (htemp : v.isTempItem = false)
    (hexpF : v.isExpired ctx.realNow = false)
    (hspace : ctx.hasSpace = true) :
    ∃ sv, processSet ctx ht itm v.cas true false maybeKeyExists =
        ((if v.dirty then .WasDirty else .WasClean),
         { ht with slot := some sv }, some sv) ∧
      sv.isLocked ctx.curTime = false := by
  obtain ⟨d1, d2, d3⟩ := temp_decomp v htemp
  have hdel := deleted_false_of_locked v ctx.curTime hlock
  obtain ⟨s, m⟩ := ht
  replace hv : s = some v := hv
  subst hv
  rw [processSet]
  refine ⟨(updateStoredValue ctx v.unlock
    { itm with revSeqno := v.unlock.revSeqno + 1 }).2, ?_, ?_⟩
  · simp only [StoredValue.isTempDeletedItem] at d2
    simp [hspace, d1, hexpF, hlock, processSetMain, processSetUpdatePath,
      StoredValue.unlock, hdel, d2, updateStoredValue,
      StoredValue.isTempDeletedItem]
  · simp [updateStoredValue, StoredValue.isLocked]

/-- C4 (amended): `getLocked` sets the lock expiry to `now + timeout` and
bumps the CAS from the HLC; while the value stays locked and unexpired,
any write through `processSet` that allows existing values and presents
CAS 0 or a non-matching CAS fails `IsLocked` and changes nothing, and a
write presenting the matching CAS unlocks the value and proceeds. -/
theorem C4_locking_protocol :
    (∀ (ctx : VBCtx) (ht : HTSlot) (v : StoredValue) (lockTimeout : Nat),
       ht.slot = some v → v.deleted = false → v.isTempItem = false →
       v.isLocked ctx.curTime = false → v.resident = true →
       v.isExpired ctx.realNow = false →
       VBucket.getLocked ctx ht lockTimeout =
         (.Success,
          { ht with
            slot := some { v with lockExpiry := ctx.curTime + lockTimeout,
                                  cas := ctx.hlcCas } })) ∧
    (∀ (ctx : VBCtx) (ht : HTSlot) (v : StoredValue) (itm : Item)
       (cas : Nat) (maybeKeyExists : Bool),
       ht.slot = some v → v.isLocked ctx.curTime = true →
       v.isTempItem = false → v.isExpired ctx.realNow = false →
       ctx.hasSpace = true → v.cas ≠ 0 → (cas = 0 ∨ cas ≠ v.cas) →
       processSet ctx ht itm cas true false maybeKeyExists =
         (.IsLocked, ht, none)) ∧
    (∀ (ctx : VBCtx) (ht : HTSlot) (v : StoredValue) (itm : Item)
       (maybeKeyExists : Bool),
       ht.slot = some v → v.isLocked ctx.curTime = true →
       v.isTempItem = false → v.isExpired ctx.realNow = false →
       ctx.hasSpace = true →
       ∃ sv, processSet ctx ht itm v.cas true false maybeKeyExists =
           ((if v.dirty then .WasDirty else .WasClean),
            { ht with slot := some sv }, some sv) ∧
         sv.isLocked ctx.curTime = false) :=
  ⟨fun ctx ht v lt hv hdel htemp hlock hres hexpF =>
     getLocked_locks ctx ht v lt hv hdel htemp hlock hres hexpF,
   fun ctx ht v itm cas mke hv hlock htemp hexpF hspace hvc hcas =>
     processSet_locked_rejects ctx ht v itm cas mke hv hlock htemp hexpF
       hspace hvc hcas,
   fun ctx ht v itm mke hv hlock htemp hexpF hspace =>
     processSet_matching_cas_unlocks ctx ht v itm mke hv hlock htemp hexpF
       hspace⟩

/-- Witness for C4: lock `c4v` (expiry 25 = 10 + 15, CAS 42), then a CAS-0
write is refused and a CAS-42 write goes through. -/
theorem C4_locking_protocol_witness :
    VBucket.getLocked c4ctx c4ht 15 = (.Success, c4lht) ∧
      processSet c4ctx c4lht c3itm 0 true false true =
        (.IsLocked, c4lht, none) ∧
      (∃ sv, processSet c4ctx c4lht c3itm c4lv.cas true false true =
          ((if c4lv.dirty then .WasDirty else .WasClean),
           { c4lht with slot := some sv }, some sv) ∧
        sv.isLocked c4ctx.curTime = false) :=
  ⟨C4_locking_protocol.1 c4ctx c4ht c4v 15 rfl rfl (by decide) (by decide)
     rfl (by decide),
   C4_locking_protocol.2.1 c4ctx c4lht c4lv c3itm 0 true rfl (by decide)
     (by decide) (by decide) rfl (by decide) (Or.inl rfl),
   C4_locking_protocol.2.2 c4ctx c4lht c4lv c3itm true rfl (by decide)
     (by decide) (by decide) rfl⟩

/-- Counterexample for C4 as stated: the expired-and-locked `c2v` with a
wrong nonzero CAS returns NotFound (not IsLocked), and a locked value met
with `allowExisting = false` (the `setWithMeta` path) returns InvalidCas
(not IsLocked) while still locked. -/
theorem C4_counterexample :
    c2v.isLocked c2ctx.curTime = true ∧ (7 : Nat) ≠ c2v.cas ∧
      (processSet c2ctx c2ht c2itm 7 true false true).1 = .NotFound ∧
      c4bv.isLocked c4ctx.curTime = true ∧
      (processSet c4ctx c4bht c2itm 0 false true true).1 =
        .InvalidCas := by decide

/-- A temp-non-existent or temp-deleted placeholder is a temp item. -/
theorem tempNE_isTempItem (v : StoredValue)
    (h : v.isTempNonExistentItem = true ∨ v.isTempDeletedItem = true) :
    v.isTempItem = true := by
  rcases h with h | h <;> simp [StoredValue.isTempItem, h]

/-- Under full eviction, `deleteItem` on a temp-non-existent or
temp-deleted placeholder removes it and returns KeyNotFound. -/
theorem deleteItem_removes_temp_full (ctx : VBCtx) (ht : HTSlot)
    (v : StoredValue) (reqCas : Nat)
    (hv : ht.slot = some v)
    (htmp : v.isTempNonExistentItem = true ∨ v.isTempDeletedItem = true)
    (hl : v.lockExpiry = 0)
    (hev : ctx.eviction = .fullEviction) :
    VBucket.deleteItem ctx ht reqCas =
      (.KeyNotFound, { ht with slot := none }) := by
  have hti := tempNE_not_initial v htmp
  have htempT := tempNE_isTempItem v htmp
  have hlf := not_locked_of_lockExpiry_zero v ctx.curTime hl
  have hor : (v.isTempNonExistentItem || v.isTempDeletedItem) = true := by
    rcases htmp with h | h <;> simp [h]
  obtain ⟨s, m⟩ := ht
  replace hv : s = some v := hv
  subst hv
  rw [VBucket.deleteItem]
  simp [hev, hti, htempT, hor, deleteStoredValue, hlf]

/-- Under value-only eviction, `deleteItem` on such a placeholder returns
KeyNotFound but leaves the placeholder in the hash table. -/
theorem deleteItem_keeps_temp_valueOnly (ctx : VBCtx) (ht : HTSlot)
    (v : StoredValue) (reqCas : Nat)
    (hv : ht.slot = some v)
    (htmp : v.isTempNonExistentItem = true ∨ v.isTempDeletedItem = true)
    (hev : ctx.eviction = .valueOnly) :
    VBucket.deleteItem ctx ht reqCas = (.KeyNotFound, ht) := by
  have htempT := tempNE_isTempItem v htmp
  obtain ⟨s, m⟩ := ht
  replace hv : s = some v := hv
  subst hv
  rw [VBucket.deleteItem]
  simp [hev, htempT]

/-- A get carrying `DELETE_TEMP` removes a temp-non-existent or
temp-deleted placeholder and reports KeyNotFound. -/
theorem getInternal_removes_temp (ctx : VBCtx) (ht : HTSlot)
    (v : StoredValue) (opts : GetOptions) (diskFlushAll : Bool)
    (hv : ht.slot = some v)
    (htmp : v.isTempNonExistentItem = true ∨ v.isTempDeletedItem = true)
    (hl : v.lockExpiry = 0)
    (hdt : opts.deleteTemp = true)
    (hdl : v.deleted = false ∨ opts.getDeletedValue = true) :
    VBucket.getInternal ctx ht opts diskFlushAll =
      (.KeyNotFound, { ht with slot := none }) := by
  have htempT := tempNE_isTempItem v htmp
  have hlf := not_locked_of_lockExpiry_zero v ctx.curTime hl
  have hor : (v.isTempDeletedItem || v.isTempNonExistentItem) = true := by
    rcases htmp with h | h <;> simp [h]
  have hdl2 : (v.deleted && !opts.getDeletedValue) = false := by
    rcases hdl with h | h <;> simp [h]
  obtain ⟨s, m⟩ := ht
  replace hv : s = some v := hv
  subst hv
  rw [VBucket.getInternal, fetchValidValue]
  simp [htempT, hdl2, hor, hdt, deleteStoredValue, hlf]

/-- C9 (amended): a temp-non-existent/temp-deleted placeholder is removed
with KeyNotFound by `deleteItem` under full eviction and by any get
carrying `DELETE_TEMP`; under value-only eviction `deleteItem` returns
KeyNotFound but leaves the placeholder in place. -/
theorem C9_temp_placeholder_cleanup :
    (∀ (ctx : VBCtx) (ht : HTSlot) (v : StoredValue) (reqCas : Nat),
       ht.slot = some v →
       (v.isTempNonExistentItem = true ∨ v.isTempDeletedItem = true) →
       v.lockExpiry = 0 →
       (ctx.eviction = .fullEviction →
          VBucket.deleteItem ctx ht reqCas =
            (.KeyNotFound, { ht with slot := none })) ∧
       (ctx.eviction = .valueOnly →
          VBucket.deleteItem ctx ht reqCas = (.KeyNotFound, ht))) ∧
    (∀ (ctx : VBCtx) (ht : HTSlot) (v : StoredValue) (opts : GetOptions)
       (diskFlushAll : Bool),
       ht.slot = some v →
       (v.isTempNonExistentItem = true ∨ v.isTempDeletedItem = true) →
       v.lockExpiry = 0 → opts.deleteTemp = true →
       (v.deleted = false ∨ opts.getDeletedValue = true) →
       VBucket.getInternal ctx ht opts diskFlushAll =
         (.KeyNotFound, { ht with slot := none })) :=
  ⟨fun ctx ht v reqCas hv htmp hl =>
     ⟨fun hev => deleteItem_removes_temp_full ctx ht v reqCas hv htmp hl hev,
      fun hev => deleteItem_keeps_temp_valueOnly ctx ht v reqCas hv htmp hev⟩,
   fun ctx ht v opts dfa hv htmp hl hdt hdl =>
     getInternal_removes_temp ctx ht v opts dfa hv htmp hl hdt hdl⟩

/-- Witness for C9 at the concrete placeholder `c9v`. -/
theorem C9_temp_placeholder_cleanup_witness :
    VBucket.deleteItem c9ctxFull c9ht 0 = (.KeyNotFound, ⟨none, 3⟩) ∧
      VBucket.deleteItem c9ctxVal c9ht 0 = (.KeyNotFound, c9ht) ∧
      VBucket.getInternal c9ctxFull c9ht c9opts false =
        (.KeyNotFound, ⟨none, 3⟩) :=
  ⟨((C9_temp_placeholder_cleanup.1 c9ctxFull c9ht c9v 0 rfl
      (Or.inl (by decide)) rfl).1) rfl,
   ((C9_temp_placeholder_cleanup.1 c9ctxVal c9ht c9v 0 rfl
      (Or.inl (by decide)) rfl).2) rfl,
   C9_temp_placeholder_cleanup.2 c9ctxFull c9ht c9v c9opts false rfl
     (Or.inl (by decide)) rfl rfl (Or.inl rfl)⟩

/-- Counterexample for C9 as stated: under value-only eviction,
`deleteItem` over the temp-non-existent placeholder `c9v` returns
KeyNotFound but the placeholder survives in the hash table. -/
theorem C9_counterexample :
    VBucket.deleteItem c9ctxVal c9ht 0 = (.KeyNotFound, c9ht) ∧
      c9ht.slot ≠ none ∧ c9v.isTempNonExistentItem = true := by decide

/-- Advancing positions changes no tracked write. -/
theorem advance_tracked (m : Monitor) (node : String) (mem disk : Nat) :
    ((m.advanceNodeMemory node mem).advanceNodeDisk node disk).tracked =
      m.tracked := rfl

/-- Advancing positions changes the chain (hence the majority) not at
all. -/
theorem advance_majority (m : Monitor) (node : String) (mem disk : Nat) :
    ((m.advanceNodeMemory node mem).advanceNodeDisk node disk).majority =
      m.majority := rfl

/-- C1 (amended): a tracked Majority write at seqno `s` is removed by
`seqnoAckReceived` exactly when at least `chain.size/2 + 1` nodes
(including the active, which implicitly acknowledges at add time) have
their memory position at or past `s`; in the `[active, r1, r2]` scenario
a single `ack(r1, mem=1, disk=0)` commits the write at seqno 1, and on
the four-node chain of the test suite a second node's ack does not yet
commit while the third node's does. -/
theorem C1_majority_commit :
    (∀ (m : Monitor) (node : String) (memSeqno diskSeqno : Nat)
       (w : SyncWrite), w ∈ m.tracked → w.level = .Majority →
       (w ∈ (m.seqnoAckReceived node memSeqno diskSeqno).tracked ↔
         ((m.advanceNodeMemory node memSeqno).advanceNodeDisk node
             diskSeqno).nodesWithMemGE w.seqno < m.majority)) ∧
    c1m3.tracked.length = 1 ∧
    (c1m3.seqnoAckReceived "r1" 1 0).tracked = [] ∧
    (c1m4.seqnoAckReceived "replica2" 1 0).tracked.length =
      multipleReplicaExpectedTrackedAfterReplica2 ∧
    ((c1m4.seqnoAckReceived "replica2" 1 0).seqnoAckReceived "replica3"
        1 0).tracked.length = 0 := by
  refine ⟨?_, by decide, by decide, by decide, by decide⟩
  intro m node memSeqno diskSeqno w hw hlev
  rw [Monitor.seqnoAckReceived, Monitor.removeCommitted]
  simp only [List.mem_filter, advance_tracked, advance_majority,
    Monitor.isCommittedWith, hlev, hw, true_and, Bool.not_eq_true',
    decide_eq_false_iff_not, Nat.not_le]

/-- Witness for C1's general commit criterion at the three-node
scenario. -/
theorem C1_majority_commit_witness :
    (⟨1, .Majority⟩ : SyncWrite) ∈
        (c1m3.seqnoAckReceived "r1" 1 0).tracked ↔
      ((c1m3.advanceNodeMemory "r1" 1).advanceNodeDisk "r1"
          0).nodesWithMemGE 1 < c1m3.majority :=
  C1_majority_commit.1 c1m3 "r1" 1 0 ⟨1, .Majority⟩ (by decide) rfl

/-- Counterexample for C1 as stated: with the spec's `⌈chain.size/2⌉`
majority, the four-node scenario of
`DurabilityMonitorTest.SeqnoAckReceived_MultipleReplica` would commit
after the second node's ack (zero tracked), while the test asserts one
write is still tracked. -/
theorem C1_counterexample :
    (c1m4.seqnoAckReceivedCeil "replica2" 1 0).tracked.length = 0 ∧
      multipleReplicaExpectedTrackedAfterReplica2 = 1 ∧
      (c1m4.seqnoAckReceivedCeil "replica2" 1 0).tracked.length ≠
        multipleReplicaExpectedTrackedAfterReplica2 := by decide

/-- C6 (amended): with collection 9 opened at seqno 5, writes at 6-8 and
its deletion begun at seqno 9, a key of the collection at seqno 6 is
logically deleted while one at seqno 12 is not (12 exceeds
`greatestEndSeqno = 9`); after `completeDeletion` removes the entry both
lookups return false. -/
theorem C6_logical_delete_gate :
    c6stOpen.man.map.lookup 9 = some ⟨5, state_collection_open⟩ ∧
      c6stDeleting.man.map.lookup 9 = some ⟨5, 9⟩ ∧
      c6stDeleting.man.greatestEndSeqno = 9 ∧
      isLogicallyDeleted c6stDeleting.man c6key 6 = true ∧
      isLogicallyDeleted c6stDeleting.man c6key 12 = false ∧
      c6stCompleted.man.map.lookup 9 = none ∧
      isLogicallyDeleted c6stCompleted.man c6key 6 = false ∧
      isLogicallyDeleted c6stCompleted.man c6key 12 = false := by decide

/-- Counterexample for C6 as stated: before `completeDeletion`, the
seqno-12 lookup already returns false, not true. -/
theorem C6_counterexample :
    c6stDeleting.man.map.lookup 9 = some ⟨5, 9⟩ ∧
      (c6stDeleting.man.map.lookup 9).isSome = true ∧
      isLogicallyDeleted c6stDeleting.man c6key 12 = false := by decide

/-- One item-pager visit either leaves `completePhase` alone or clears
it; algebraically it ANDs in the negation of the stop condition. -/
theorem visitBucketStep_eq (wm : PagerWatermarks) (b : Bool)
    (o : VisitObs) :
    visitBucketStep wm b o =
      (b && !(!((o.vbState == .active) && decide (o.mem < wm.upper) &&
          decide (o.activeRes < o.replicaRes)) &&
        !(decide (o.mem > wm.lower)))) := by
  rw [visitBucketStep]
  split
  · next h => simp [h]
  · next h =>
    rw [Bool.and_comm] at *
    split
    · next h2 => simp_all
    · next h2 =>
      simp_all
      rintro (⟨⟨h3, h4⟩, h5⟩ | h6)
      · exact absurd (h h5 h3) (not_le.mpr h4)
      · exact absurd h6 (not_lt.mpr h2)

/-- The pass's final `completePhase` is the negation of "some visit
observed memory at or below the low watermark". -/
theorem completePhase_eq (wm : PagerWatermarks) (obs : List VisitObs) :
    pagingVisitorCompletePhase wm obs = !(passReachedLowWM wm obs) := by
  rw [pagingVisitorCompletePhase, passReachedLowWM]
  have grl : ∀ (l : List VisitObs) (b : Bool),
      l.foldl (visitBucketStep wm) b =
        (b && !(l.any (fun o =>
          !((o.vbState == .active) && decide (o.mem < wm.upper) &&
              decide (o.activeRes < o.replicaRes)) &&
            !(decide (o.mem > wm.lower))))) := by
    intro l
    induction l with
    | nil => intro b; simp
    | cons o t ih =>
      intro b
      rw [List.foldl_cons, ih, visitBucketStep_eq, List.any_cons]
      cases b <;> simp [Bool.and_assoc]
  rw [grl]
  simp

/-- C7: an item-pager pass starting above the low watermark computes
`toKill = (C − L)/C` and `evictionPercent = toKill × (1 +
evictionMultiplier)`; the multiplier starts at 0, grows by 0.05 after a
pass that never observed memory at or below the low watermark, and
resets to 0 after a pass that stopped early because memory fell below
it. -/
theorem C7_pager_eviction_percent (st : ItemPagerState)
    (wm : PagerWatermarks) (current : Rat) (policy : EvictionPolicy)
    (activeEvictPcnt : Nat) (obs : List VisitObs)
    (hlow : wm.lower < current)
    (hrun : ((decide (current > wm.upper) || st.doEvict || st.notified) &&
      st.available) = true) :
    ItemPager.init.multiplier = 0 ∧
      ∃ params st2,
        itemPagerRun st wm current policy activeEvictPcnt =
          (some params, st2) ∧
        params.percent = (current - wm.lower) / current ∧
        params.evictionPercent =
          ((current - wm.lower) / current) * (1 + st.multiplier) ∧
        st2.multiplier = st.multiplier ∧
        pagingVisitorComplete st.multiplier
            (pagingVisitorCompletePhase wm obs) =
          (if passReachedLowWM wm obs then 0
           else st.multiplier + 5 / 100) := by
  refine ⟨rfl, ?_⟩
  have hnle : ¬current ≤ wm.lower := not_le.mpr hlow
  rw [itemPagerRun]
  simp only [hnle, if_false, if_neg hnle]
  rw [if_pos]
  · refine ⟨_, _, rfl, rfl, ?_, ?_, ?_⟩
    · cases hpol : (policy == EvictionPolicy.valueOnly) <;> simp
    · cases hpol : (policy == EvictionPolicy.valueOnly) <;> simp
    · rw [completePhase_eq]
      cases hre : passReachedLowWM wm obs <;>
        simp [pagingVisitorComplete, hre]
  · exact hrun

/-- Witness for C7: watermarks 50/80, memory 100, one replica visit at
45 (below the low watermark). -/
theorem C7_pager_eviction_percent_witness :
    ItemPager.init.multiplier = 0 ∧
      ∃ params st2,
        itemPagerRun ItemPager.init ⟨50, 80⟩ 100 .fullEviction 40 =
          (some params, st2) ∧
        params.percent = ((100 : Rat) - 50) / 100 ∧
        params.evictionPercent =
          (((100 : Rat) - 50) / 100) * (1 + ItemPager.init.multiplier) ∧
        st2.multiplier = ItemPager.init.multiplier ∧
        pagingVisitorComplete ItemPager.init.multiplier
            (pagingVisitorCompletePhase ⟨50, 80⟩
              [⟨.replica, 45, 0, 0⟩]) =
          (if passReachedLowWM ⟨50, 80⟩ [⟨.replica, 45, 0, 0⟩] then 0
           else ItemPager.init.multiplier + 5 / 100) :=
  C7_pager_eviction_percent ItemPager.init ⟨50, 80⟩ 100 .fullEviction 40
    [⟨.replica, 45, 0, 0⟩] (by decide) (by decide)

/-- Lookup succeeds exactly for the keys of the association list. -/
theorem lookup_isSome_iff (l : List (Nat × ManifestEntry)) (c : Nat) :
    (l.lookup c).isSome = true ↔ c ∈ l.map Prod.fst := by
  induction l with
  | nil => simp
  | cons kv t ih =>
    obtain ⟨k, e⟩ := kv
    by_cases h : c = k
    · subst h; simp [List.lookup]
    · have hbe : (c == k) = false := beq_eq_false_iff_ne.mpr h
      simp only [List.lookup, hbe, List.map_cons, List.mem_cons]
      rw [ih]
      simp [h]

/-- Setting an entry's end seqno keeps the key list. -/
theorem mapSetEnd_keys (l : List (Nat × ManifestEntry)) (c : Nat)
    (s : Int) : (mapSetEnd l c s).map Prod.fst = l.map Prod.fst := by
  induction l with
  | nil => rfl
  | cons kv t ih =>
    by_cases h : kv.1 = c <;> simp_all [mapSetEnd]

/-- Setting an entry's start seqno keeps the key list. -/
theorem mapSetStart_keys (l : List (Nat × ManifestEntry)) (c : Nat)
    (s : Int) : (mapSetStart l c s).map Prod.fst = l.map Prod.fst := by
  induction l with
  | nil => rfl
  | cons kv t ih =>
    by_cases h : kv.1 = c <;> simp_all [mapSetStart]

/-- One `beginCollectionDelete` on a present collection: queues one
collection-end event carrying the given uid, keeps the key list, bumps
`nDeletingCollections` and records the uid. -/
theorem beginCollectionDelete_ok (st : MState) (u c : Nat)
    (hc : (st.man.map.lookup c).isSome = true) :
    ∃ st', beginCollectionDelete st u c = .ok st' ∧
      st'.events = st.events ++
        [⟨.Collection, c, true, u, st.vbSeqno + 1⟩] ∧
      st'.man.map.map Prod.fst = st.man.map.map Prod.fst ∧
      st'.man.nDeletingCollections = st.man.nDeletingCollections + 1 ∧
      st'.man.manifestUid = u := by
  obtain ⟨e, hl⟩ := Option.isSome_iff_exists.mp hc
  rw [beginCollectionDelete, hl]
  exact ⟨_, rfl, by simp [queueSystemEvent],
    by simp [queueSystemEvent, VBManifest.trackEndSeqno, mapSetEnd_keys],
    by simp [queueSystemEvent, VBManifest.trackEndSeqno],
    by simp [queueSystemEvent, VBManifest.trackEndSeqno]⟩

/-- One `addCollection` of an absent collection: queues one
collection-begin event carrying the given uid, appends the key, keeps
`nDeletingCollections` and records the uid. -/
theorem addCollection_ok (st : MState) (u c : Nat)
    (hc : (st.man.map.lookup c).isSome = false) :
    ∃ st', addCollection st u c = .ok st' ∧
      st'.events = st.events ++
        [⟨.Collection, c, false, u, st.vbSeqno + 1⟩] ∧
      st'.man.map.map Prod.fst = st.man.map.map Prod.fst ++ [c] ∧
      st'.man.nDeletingCollections = st.man.nDeletingCollections ∧
      st'.man.manifestUid = u := by
  rw [addCollection, hc]
  exact ⟨_, rfl, by simp [queueSystemEvent],
    by simp [queueSystemEvent, mapSetStart_keys],
    by simp [queueSystemEvent],
    by simp [queueSystemEvent]⟩

/-- Folding `beginCollectionDelete` over collections that are all present
queues one end event per collection (all carrying the given uid, in
order), keeps the key list and adds the count to
`nDeletingCollections`. -/
theorem foldBeginDelete_ok (ds : List Nat) (st : MState) (u : Nat)
    (h : ∀ c ∈ ds, c ∈ st.man.map.map Prod.fst) :
    ∃ st', ds.foldlM (fun s c => beginCollectionDelete s u c) st =
        .ok st' ∧
      st'.events.map SysEvent.info =
        st.events.map SysEvent.info ++ ds.map (fun c => (c, true, u)) ∧
      st'.man.map.map Prod.fst = st.man.map.map Prod.fst ∧
      st'.man.nDeletingCollections =
        st.man.nDeletingCollections + ds.length ∧
      st'.man.manifestUid =
        (if ds.isEmpty then st.man.manifestUid else u) := by
  induction ds generalizing st with
  | nil => exact ⟨st, rfl, by simp, rfl, rfl, by simp⟩
  | cons c t ih =>
    have hc : (st.man.map.lookup c).isSome = true :=
      (lookup_isSome_iff _ _).mpr (h c (List.mem_cons_self _ _))
    obtain ⟨st1, h1, he, hk, hn, hu⟩ := beginCollectionDelete_ok st u c hc
    obtain ⟨st', h2, he2, hk2, hn2, hu2⟩ := ih st1
      (fun x hx => by rw [hk]; exact h x (List.mem_cons_of_mem _ hx))
    refine ⟨st', ?_, ?_, ?_, ?_, ?_⟩
    · rw [List.foldlM_cons, h1]
      simpa using h2
    · rw [he2, he]
      simp [SysEvent.info]
    · rw [hk2, hk]
    · rw [hn2, hn]
      simp [Nat.add_assoc, Nat.add_comm 1 t.length]
    · rw [hu2, hu]
      cases t <;> simp

/-- Folding `addCollection` over fresh, pairwise distinct collections
queues one begin event per collection (all carrying the given uid, in
order), appends the keys and keeps `nDeletingCollections`. -/
theorem foldAddCollection_ok (as : List Nat) (st : MState) (u : Nat)
    (hnd : as.Nodup)
    (h : ∀ c ∈ as, c ∉ st.man.map.map Prod.fst) :
    ∃ st', as.foldlM (fun s c => addCollection s u c) st = .ok st' ∧
      st'.events.map SysEvent.info =
        st.events.map SysEvent.info ++ as.map (fun c => (c, false, u)) ∧
      st'.man.map.map Prod.fst = st.man.map.map Prod.fst ++ as ∧
      st'.man.nDeletingCollections = st.man.nDeletingCollections ∧
      st'.man.manifestUid =
        (if as.isEmpty then st.man.manifestUid else u) := by
  induction as generalizing st with
  | nil => exact ⟨st, rfl, by simp, by simp, rfl, by simp⟩
  | cons c t ih =>
    have hc : (st.man.map.lookup c).isSome = false := by
      rw [Bool.eq_false_iff]
      intro hh
      exact h c (List.mem_cons_self _ _) ((lookup_isSome_iff _ _).mp hh)
    obtain ⟨st1, h1, he, hk, hn, hu⟩ := addCollection_ok st u c hc
    have hnd' : t.Nodup := hnd.of_cons
    have hmem : ∀ x ∈ t, x ∉ st1.man.map.map Prod.fst := by
      intro x hx
      rw [hk]
      simp only [List.mem_append, List.mem_singleton]
      rintro (hm | rfl)
      · exact h x (List.mem_cons_of_mem _ hx) hm
      · exact (List.nodup_cons.mp hnd).1 hx
    obtain ⟨st', h2, he2, hk2, hn2, hu2⟩ := ih st1 hnd' hmem
    refine ⟨st', ?_, ?_, ?_, ?_, ?_⟩
    · rw [List.foldlM_cons, h1]
      simpa using h2
    · rw [he2, he]
      simp [SysEvent.info]
    · rw [hk2, hk]
      simp
    · rw [hn2, hn]
    · rw [hu2, hu]
      cases t <;> simp

/-- The deletions a manifest diff computes are existing collections. -/
theorem processManifest_deletions_mem (m : VBManifest)
    (newCols additions deletions : List Nat)
    (hp : processManifest m newCols = some (additions, deletions)) :
    ∀ c ∈ deletions, c ∈ m.map.map Prod.fst := by
  rw [processManifest] at hp
  split at hp
  · exact absurd hp (by simp)
  · obtain ⟨h1, h2⟩ := Prod.mk.inj (Option.some.inj hp)
    subst h2
    intro c hcm
    obtain ⟨kv, hkv, rfl⟩ := List.mem_map.mp hcm
    exact List.mem_map.mpr ⟨kv, (List.mem_filter.mp hkv).1, rfl⟩

/-- The additions a manifest diff computes are absent collections. -/
theorem processManifest_additions_not_mem (m : VBManifest)
    (newCols additions deletions : List Nat)
    (hp : processManifest m newCols = some (additions, deletions)) :
    ∀ c ∈ additions, c ∉ m.map.map Prod.fst := by
  rw [processManifest] at hp
  split at hp
  · exact absurd hp (by simp)
  · obtain ⟨h1, h2⟩ := Prod.mk.inj (Option.some.inj hp)
    subst h1
    intro c hcm hmem
    have hno := (List.mem_filter.mp hcm).2
    rw [← lookup_isSome_iff] at hmem
    simp only [Option.isNone_iff_eq_none, decide_eq_true_eq] at hno
    rw [hno] at hmem
    simp at hmem

/-- The additions inherit distinctness from the declared manifest. -/
theorem processManifest_additions_nodup (m : VBManifest)
    (newCols additions deletions : List Nat)
    (hnd : newCols.Nodup)
    (hp : processManifest m newCols = some (additions, deletions)) :
    additions.Nodup := by
  rw [processManifest] at hp
  split at hp
  · exact absurd hp (by simp)
  · obtain ⟨h1, h2⟩ := Prod.mk.inj (Option.some.inj hp)
    subst h1
    exact hnd.filter _

/-- Ok-bind reduction for the `Except` monad. -/
theorem except_bind_ok {α β : Type} (a : α) (f : α → Except String β) :
    ((Except.ok a : Except String α) >>= f) = f a := rfl

/-- C5 (amended): a manifest update with a non-empty deletion set applies
all deletions first, one collection-end event per deletion in order,
each bumping `nDeletingCollections`; deletions before the last carry the
old `manifestUid`, the last deletion carries the new uid only when the
update has no additions (otherwise it also carries the old uid and the
final addition carries the new uid). -/
theorem C5_deletions_first (st : MState) (newUid : Nat)
    (newCols additions deletions : List Nat)
    (hp : processManifest st.man newCols = some (additions, deletions))
    (hne : deletions ≠ [])
    (hnd : newCols.Nodup) :
    ∃ st', Manifest.update st newUid newCols = .ok (true, st') ∧
      st'.events.map SysEvent.info =
        st.events.map SysEvent.info ++
          deletions.dropLast.map
            (fun c => (c, true, st.man.manifestUid)) ++
          [(deletions.getLast hne, true,
            if additions.isEmpty then newUid else st.man.manifestUid)] ++
          additions.dropLast.map
            (fun c => (c, false, st.man.manifestUid)) ++
          additions.getLast?.elim [] (fun a => [(a, false, newUid)]) ∧
      st'.man.nDeletingCollections =
        st.man.nDeletingCollections + deletions.length := by
  have hdel := processManifest_deletions_mem _ _ _ _ hp
  have hadd := processManifest_additions_not_mem _ _ _ _ hp
  have haddnd := processManifest_additions_nodup _ _ _ _ hnd hp
  have hlpos : 0 < deletions.length := List.length_pos.mpr hne
  have hgl : deletions.getLast? = some (deletions.getLast hne) :=
    List.getLast?_eq_getLast _ hne
  obtain ⟨st1, h1, he1, hk1, hn1, hu1⟩ :=
    foldBeginDelete_ok deletions.dropLast st st.man.manifestUid
      (fun c hc => hdel c ((List.dropLast_sublist _).subset hc))
  have hfd : (st1.man.map.lookup (deletions.getLast hne)).isSome = true := by
    rw [lookup_isSome_iff, hk1]
    exact hdel _ (List.getLast_mem hne)
  unfold Manifest.update
  rw [hp]
  simp only []
  rw [h1, except_bind_ok, hgl]
  cases hE : additions.isEmpty
  · -- additions present
    have hne2 : additions ≠ [] := by
      intro hh; rw [hh] at hE; simp at hE
    have hgl2 : additions.getLast? = some (additions.getLast hne2) :=
      List.getLast?_eq_getLast _ hne2
    obtain ⟨st2, h2, he2, hk2, hn2, hu2⟩ :=
      beginCollectionDelete_ok st1 st.man.manifestUid
        (deletions.getLast hne) hfd
    have hdmem : ∀ x ∈ additions.dropLast,
        x ∉ st2.man.map.map Prod.fst := by
      intro x hx
      rw [hk2, hk1]
      exact hadd x ((List.dropLast_sublist _).subset hx)
    obtain ⟨st3, h3, he3, hk3, hn3, hu3⟩ :=
      foldAddCollection_ok additions.dropLast st2 st.man.manifestUid
        (haddnd.sublist (List.dropLast_sublist _)) hdmem
    have hsplit := List.dropLast_append_getLast hne2
    have hnd2 : (additions.dropLast ++
        [additions.getLast hne2]).Nodup := by
      rw [hsplit]; exact haddnd
    have hfa : (st3.man.map.lookup (additions.getLast hne2)).isSome =
        false := by
      rw [Bool.eq_false_iff]
      intro hh
      have hmem := (lookup_isSome_iff _ _).mp hh
      rw [hk3, hk2, hk1] at hmem
      rcases List.mem_append.mp hmem with hm | hm
      · exact hadd _ (List.getLast_mem hne2) hm
      · exact (List.disjoint_of_nodup_append hnd2).symm
          (List.mem_singleton_self _) hm
    obtain ⟨st4, h4, he4, hk4, hn4, hu4⟩ :=
      addCollection_ok st3 newUid (additions.getLast hne2) hfa
    simp only [Option.elim, Bool.false_eq_true, if_false]
    rw [h2, except_bind_ok, h3, except_bind_ok, hgl2]
    simp only [Option.elim]
    rw [h4, except_bind_ok]
    refine ⟨st4, rfl, ?_, ?_⟩
    · rw [he4, List.map_append, he3, he2, List.map_append, he1]
      simp [SysEvent.info]
    · rw [hn4, hn3, hn2, hn1]
      have := List.length_dropLast deletions
      omega
  · -- no additions: the final deletion carries the new uid
    have haddnil : additions = [] := List.isEmpty_iff.mp hE
    subst haddnil
    obtain ⟨st2, h2, he2, hk2, hn2, hu2⟩ :=
      beginCollectionDelete_ok st1 newUid (deletions.getLast hne) hfd
    simp only [Option.elim, if_true, eq_self_iff_true]
    rw [h2, except_bind_ok]
    refine ⟨st2, rfl, ?_, ?_⟩
    · rw [he2, List.map_append, he1]
      simp [SysEvent.info]
    · rw [hn2, hn1]
      have := List.length_dropLast deletions
      omega

/-- Witness for C5: delete collection 8 moving `c5man` (uid 7) to uid 9
with no additions. -/
theorem C5_deletions_first_witness :
    ∃ st', Manifest.update c5st 9 [0] = .ok (true, st') ∧
      st'.events.map SysEvent.info =
        c5st.events.map SysEvent.info ++
          ([8] : List Nat).dropLast.map
            (fun c => (c, true, c5st.man.manifestUid)) ++
          [(([8] : List Nat).getLast (by decide), true,
            if ([] : List Nat).isEmpty then 9
            else c5st.man.manifestUid)] ++
          ([] : List Nat).dropLast.map
            (fun c => (c, false, c5st.man.manifestUid)) ++
          ([] : List Nat).getLast?.elim []
            (fun a => [(a, false, 9)]) ∧
      st'.man.nDeletingCollections =
        c5st.man.nDeletingCollections + ([8] : List Nat).length :=
  C5_deletions_first c5st 9 [0] [] [8] (by decide) (by decide) (by decide)

/-- Counterexample for C5 as stated: updating `c5man` (uid 7) to uid 9
while deleting collection 8 and adding collection 11 queues the deletion
event with the *old* uid 7, not the new uid 9 the claim asserts. -/
theorem C5_counterexample :
    c5updated.events.map SysEvent.info = [(8, true, 7), (11, false, 9)] ∧
      c5man.manifestUid = 7 ∧ (7 : Nat) ≠ 9 := by decide

/-- Parsing back a hex-rendered uid gives the uid. -/
theorem hex_roundtrip (n : Nat) : makeUid (natToHexDigits n) = n :=
  Nat.ofDigits_digits 16 n

/-- Parsing back a decimal-rendered seqno gives the seqno. -/
theorem stoll_roundtrip (i : Int) : stollModel (intSerial i) = i := by
  unfold stollModel intSerial
  simp only [decide_eq_true_eq]
  split
  · next h => rw [Nat.ofDigits_digits]; omega
  · next h => rw [Nat.ofDigits_digits]; omega

/-- One constructor step over a serialised entry of a fresh collection
appends exactly that `(collection, entry)` pair. -/
theorem ctorStep_entryToJson (m : VBManifest) (c : Nat)
    (e : ManifestEntry) (hc : (m.map.lookup c).isSome = false) :
    ∃ m', ctorStep m (entryToJson c e) = .ok m' ∧
      m'.map = m.map ++ [(c, e)] ∧ m'.manifestUid = m.manifestUid := by
  rw [ctorStep, entryToJson]
  simp only [hex_roundtrip, stoll_roundtrip]
  rw [hc]
  simp only [Bool.false_eq_true, if_false]
  refine ⟨_, rfl, ?_, ?_⟩ <;>
    by_cases hd :
        (⟨e.startSeqno, e.endSeqno⟩ : ManifestEntry).isDeleting = true <;>
      by_cases hdef : c = defaultCID <;>
        simp [hd, hdef, VBManifest.trackEndSeqno]

/-- Folding the constructor over serialised entries with fresh, distinct
collections rebuilds exactly those entries, in order. -/
theorem ctorFold_ok (entries : List (Nat × ManifestEntry))
    (m : VBManifest)
    (hnd : (entries.map Prod.fst).Nodup)
    (hdis : ∀ c ∈ entries.map Prod.fst, c ∉ m.map.map Prod.fst) :
    ∃ m', (entries.map (fun kv => entryToJson kv.1 kv.2)).foldlM ctorStep
        m = .ok m' ∧
      m'.map = m.map ++ entries ∧ m'.manifestUid = m.manifestUid := by
  induction entries generalizing m with
  | nil => exact ⟨m, rfl, by simp, rfl⟩
  | cons kv t ih =>
    obtain ⟨c, e⟩ := kv
    simp only [List.map_cons] at hnd
    have hc : (m.map.lookup c).isSome = false := by
      rw [Bool.eq_false_iff]
      intro hh
      exact hdis c (by simp) ((lookup_isSome_iff _ _).mp hh)
    obtain ⟨m1, h1, hm1, hu1⟩ := ctorStep_entryToJson m c e hc
    have hnd' : (t.map Prod.fst).Nodup := hnd.of_cons
    have hdis' : ∀ x ∈ t.map Prod.fst, x ∉ m1.map.map Prod.fst := by
      intro x hx
      rw [hm1]
      simp only [List.map_append, List.mem_append, List.map_cons,
        List.map_nil, List.mem_singleton, not_or]
      constructor
      · exact hdis x (by simp [hx])
      · intro hxc
        rw [hxc] at hx
        exact (List.nodup_cons.mp hnd).1 hx
    obtain ⟨m', h2, hm2, hu2⟩ := ih m1 hnd' hdis'
    refine ⟨m', ?_, ?_, ?_⟩
    · rw [List.map_cons, List.foldlM_cons, h1]
      simpa using h2
    · rw [hm2, hm1]
      simp
    · rw [hu2, hu1]

/-- With distinct keys, the entries matching a present key are exactly
its single association. -/
theorem filter_eq_key_single (l : List (Nat × ManifestEntry)) (c : Nat)
    (e : ManifestEntry)
    (hnd : (l.map Prod.fst).Nodup) (hl : l.lookup c = some e) :
    l.filter (fun kv => kv.1 == c) = [(c, e)] := by
  induction l with
  | nil => simp at hl
  | cons kv t ih =>
    obtain ⟨k, e'⟩ := kv
    simp only [List.map_cons] at hnd
    by_cases h : c = k
    · subst h
      rw [List.lookup] at hl
      simp only [beq_self_eq_true] at hl
      obtain rfl : e' = e := Option.some.inj hl
      have hnone : t.filter (fun kv => kv.1 == c) = [] := by
        rw [List.filter_eq_nil_iff]
        intro kv hkv hp
        simp only [beq_iff_eq] at hp
        exact (List.nodup_cons.mp hnd).1
          (List.mem_map.mpr ⟨kv, hkv, hp⟩)
      simp [List.filter, hnone]
    · have hbe : (c == k) = false := beq_eq_false_iff_ne.mpr h
      rw [List.lookup, hbe] at hl
      have hbe2 : (k == c) = false :=
        beq_eq_false_iff_ne.mpr (fun hh => h hh.symm)
      simp [List.filter, hbe2, ih hnd.of_cons hl]

/-- The serialised entry array keeps keys distinct. -/
theorem populate_keys_nodup (m : VBManifest) (identifier : Nat)
    (hnd : (m.map.map Prod.fst).Nodup) :
    ((populateWithSerialisedData m identifier).map Prod.fst).Nodup := by
  rw [populateWithSerialisedData]
  rw [List.map_append]
  rw [List.nodup_append]
  refine ⟨?_, by simp, ?_⟩
  · exact hnd.sublist ((List.filter_sublist _).map Prod.fst)
  · intro x hx
    obtain ⟨kv, hkv, rfl⟩ := List.mem_map.mp hx
    have hp := (List.mem_filter.mp hkv).2
    simp only [bne_iff_ne, ne_eq, decide_eq_true_eq] at hp
    simp [hp]

/-- The serialised entry array is a permutation of the manifest's map. -/
theorem populate_perm (m : VBManifest) (identifier : Nat)
    (e : ManifestEntry)
    (hnd : (m.map.map Prod.fst).Nodup)
    (hl : m.map.lookup identifier = some e) :
    (populateWithSerialisedData m identifier).Perm m.map := by
  rw [populateWithSerialisedData, hl]
  have hsingle := filter_eq_key_single m.map identifier e hnd hl
  have hfun : (fun kv : Nat × ManifestEntry => !(kv.1 != identifier)) =
      (fun kv : Nat × ManifestEntry => kv.1 == identifier) := by
    funext kv
    simp [bne]
  have hperm := List.filter_append_perm
    (fun kv : Nat × ManifestEntry => kv.1 != identifier) m.map
  rw [hfun, hsingle] at hperm
  simpa using hperm

/-- C8: serialising a manifest (uid plus serialised entry array rendered
as the `{uid, collections:[{uid,startSeqno,endSeqno},...]}` JSON) and
reconstructing a manifest from that JSON yields the same `manifestUid`
and the same set of `(collection, startSeqno, endSeqno)` entries. -/
theorem C8_manifest_roundtrip (m : VBManifest) (identifier : Nat)
    (hnd : (m.map.map Prod.fst).Nodup)
    (hid : (m.map.lookup identifier).isSome = true) :
    ∃ m', manifestFromJson (serialToJson m.manifestUid
        (populateWithSerialisedData m identifier)) = .ok m' ∧
      m'.manifestUid = m.manifestUid ∧ m'.map.Perm m.map := by
  obtain ⟨e, he⟩ := Option.isSome_iff_exists.mp hid
  rw [manifestFromJson, serialToJson]
  obtain ⟨m', hf, hm, hu⟩ :=
    ctorFold_ok (populateWithSerialisedData m identifier)
      { manifestUid := makeUid (natToHexDigits m.manifestUid)
        map := []
        defaultCollectionExists := false
        greatestEndSeqno := state_collection_open
        nDeletingCollections := 0 }
      (populate_keys_nodup m identifier hnd) (by simp)
  refine ⟨m', hf, ?_, ?_⟩
  · rw [hu]
    exact hex_roundtrip m.manifestUid
  · rw [hm]
    simpa using populate_perm m identifier e hnd he

/-- Witness for C8 at the concrete manifest `c5man` with changed
collection 8. -/
theorem C8_manifest_roundtrip_witness :
    ∃ m', manifestFromJson (serialToJson c5man.manifestUid
        (populateWithSerialisedData c5man 8)) = .ok m' ∧
      m'.manifestUid = c5man.manifestUid ∧ m'.map.Perm c5man.map :=
  C8_manifest_roundtrip c5man 8 (by decide) (by decide)
